import Mathlib

/-!
Verification of the packetview backend core
(`src/backend/src/services/NetworkAnalysisService.ts`, which holds both
`NetworkAnalysisService` and `PacketCaptureService`).

Strings are embedded as `List Char`; JS `Map` objects as insertion-ordered
association lists; machine numbers as `Nat` / `Int`; canvas coordinates as
`ℚ` (the JS float arithmetic of the layout code is modelled exactly over the
rationals, with `distance < minDistance` rendered as the equivalent
square comparison).  The trigonometric displacement
`(cos(atan2(dy,dx))·force, sin(atan2(dy,dx))·force)` computed by the
collision resolvers is irrational; it is abstracted as an explicit function
parameter `tp : ℚ → ℚ → ℚ → ℚ × ℚ` of `(dx, dy, minDistance)` — no theorem
below depends on its value.  `Math.random()` draws are likewise an oracle
`rnd` keyed by the IP being materialized.
-/

namespace PacketView

abbrev Str := List Char

/-- Embed a Lean string literal as our `List Char` string model. -/
def str (s : String) : Str := s.data

/-- JS `\s` whitespace class, restricted to the characters that occur in
tcpdump output. -/
def isWS (c : Char) : Bool := c == ' ' || c == '\t' || c == '\n' || c == '\r'

/-- The regex character class `[a-fA-F0-9:]` used for MAC addresses. -/
def isHexColon (c : Char) : Bool :=
  c.isDigit || ('a' ≤ c && c ≤ 'f') || ('A' ≤ c && c ≤ 'F') || c == ':'

/-- `String.prototype.startsWith`. -/
def strStarts (pat l : Str) : Bool := pat.isPrefixOf l

/-- `String.prototype.endsWith`. -/
def strEnds (pat l : Str) : Bool := pat.isSuffixOf l

/-- `String.prototype.indexOf`, `none` standing for `-1`. -/
def findSub (pat : Str) : Str → Option Nat
  | [] => if pat.isEmpty then some 0 else none
  | c :: rest =>
    if pat.isPrefixOf (c :: rest) then some 0 else (findSub pat rest).map (· + 1)

/-- `String.prototype.includes`. -/
def containsStr (pat l : Str) : Bool := (findSub pat l).isSome

/-- `parseInt` on a (possibly empty) digit string; `parseInt(x || '0')`
yields 0 on the empty string, as does folding over no digits. -/
def digitsToNat (l : Str) : Nat := l.foldl (fun a c => a * 10 + (c.toNat - 48)) 0

/-- Decimal rendering of a `Nat` (JS number-to-string in a template literal),
via an explicit fuel bound. -/
def natDigitsAux : Nat → Nat → Str
  | 0, _ => []
  | fuel + 1, n =>
    if n < 10 then [Char.ofNat (48 + n)]
    else natDigitsAux fuel (n / 10) ++ [Char.ofNat (48 + n % 10)]

def natDigits (n : Nat) : Str := natDigitsAux (n + 1) n

/-- JS string `<` comparison (lexicographic on code units). -/
def strLt : Str → Str → Bool
  | [], [] => false
  | [], _ :: _ => true
  | _ :: _, [] => false
  | a :: as, b :: bs =>
    if a.toNat < b.toNat then true
    else if b.toNat < a.toNat then false
    else strLt as bs

/-! ## Shared types (`shared/types/index.d.ts`) -/

inductive Protocol
  | TCP | UDP | ICMP | HTTP | HTTPS | DNS | SSH | FTP | SMTP | OTHER
deriving Repr, DecidableEq

inductive DeviceType
  | HOST | ROUTER | SWITCH | FIREWALL | GATEWAY | UNKNOWN
deriving Repr, DecidableEq

structure Packet where
  timestamp : Nat
  sourceIp : Str
  destIp : Str
  sourcePort : Nat
  destPort : Nat
  protocol : Protocol
  size : Nat
  info : Option Str
deriving Repr, DecidableEq

/-! ## `PacketCaptureService.parseTcpdumpLine`

The fixed regexes of the source are compiled by hand into deterministic
scanners.  For each regex it is checked (see the comment at each function)
that the JS backtracking search cannot produce a different match than the
greedy scan implemented here, because every character class involved is
disjoint from the literal that follows it. -/

/-- The anchored regex `^([a-fA-F0-9:]{17})\s*>\s*([a-fA-F0-9:]{17}),`.
`{17}` is an exact count, and `\s` is disjoint from `>`, so the match is
deterministic. -/
def macPairMatch (l : Str) : Option (Str × Str) :=
  let m1 := l.take 17
  let r1 := l.drop 17
  if m1.length == 17 && m1.all isHexColon then
    match r1.dropWhile isWS with
    | '>' :: r2 =>
      let r3 := r2.dropWhile isWS
      let m2 := r3.take 17
      if m2.length == 17 && m2.all isHexColon then
        match r3.drop 17 with
        | ',' :: _ => some (m1, m2)
        | _ => none
      else none
    | _ => none
  else none

/-- The `info` annotation `MAC: <m1> -> <m2>` built when the MAC pair
matches. -/
def macInfo (m1 m2 : Str) : Str := str "MAC: " ++ m1 ++ str " -> " ++ m2

/-- The `ipLine` local of `parseTcpdumpLine`: when the line starts with a
MAC pair, cut to the segment after `IPv4,` (index + 6) or from `IP `;
otherwise the whole line. -/
def ipLineOf (line : Str) : Str :=
  match macPairMatch line with
  | none => line
  | some _ =>
    match findSub (str "IPv4,") line with
    | some i => line.drop (i + 6)
    | none =>
      match findSub (str "IP ") line with
      | some i => line.drop i
      | none => line

/-- The `info` local of `parseTcpdumpLine` (`info || undefined`). -/
def infoOf (line : Str) : Option Str :=
  match macPairMatch line with
  | none => none
  | some (m1, m2) => some (macInfo m1 m2)

/-- One octet `[0-9]{1,3}` followed by a literal `.`.  A digit run longer
than 3 cannot shrink to expose a `.` (shorter takes leave a digit next), so
the greedy take is the only candidate. -/
def octDot (l : Str) : Option (Str × Str) :=
  let d := l.takeWhile Char.isDigit
  let rest := l.dropWhile Char.isDigit
  if 1 ≤ d.length && d.length ≤ 3 then
    match rest with
    | '.' :: r => some (d, r)
    | _ => none
  else none

/-- The source-side tail `[0-9]{1,3}\.?(\d*)\s*>\s*` of the ip/port regex.
Returns (4th octet, port digits, rest after the `>` and its whitespace).
Digit, `.`, whitespace and `>` are pairwise incompatible where they are
tried, so the greedy decomposition below is the unique match, with the
digit run split `3 / rest` when it is longer than 3. -/
def srcTail (l : Str) : Option (Str × Str × Str) :=
  let d := l.takeWhile Char.isDigit
  let rest := l.dropWhile Char.isDigit
  if d.length == 0 then none
  else
    let (oct4, port, rest') :=
      if d.length ≤ 3 then
        match rest with
        | '.' :: r => (d, r.takeWhile Char.isDigit, r.dropWhile Char.isDigit)
        | _ => (d, [], rest)
      else (d.take 3, d.drop 3, rest)
    match rest'.dropWhile isWS with
    | '>' :: r2 => some (oct4, port, r2.dropWhile isWS)
    | _ => none

/-- The destination-side tail `[0-9]{1,3}\.?(\d*):` (the colon follows the
port digits immediately). -/
def dstTail (l : Str) : Option (Str × Str) :=
  let d := l.takeWhile Char.isDigit
  let rest := l.dropWhile Char.isDigit
  if d.length == 0 then none
  else
    let (oct4, port, rest') :=
      if d.length ≤ 3 then
        match rest with
        | '.' :: r => (d, r.takeWhile Char.isDigit, r.dropWhile Char.isDigit)
        | _ => (d, [], rest)
      else (d.take 3, d.drop 3, rest)
    match rest' with
    | ':' :: _ => some (oct4, port)
    | _ => none

structure IpPortMatch where
  srcIp : Str
  srcPortDigits : Str
  dstIp : Str
  dstPortDigits : Str
deriving Repr, DecidableEq

/-- One anchored attempt of the regex
`([0-9]{1,3}\.[0-9]{1,3}\.[0-9]{1,3}\.[0-9]{1,3})\.?(\d*)\s*>\s*([0-9]{1,3}\.[0-9]{1,3}\.[0-9]{1,3}\.[0-9]{1,3})\.?(\d*):`. -/
def ipPortMatchAt (l : Str) : Option IpPortMatch :=
  (octDot l).bind fun (o1, r1) =>
  (octDot r1).bind fun (o2, r2) =>
  (octDot r2).bind fun (o3, r3) =>
  (srcTail r3).bind fun (o4, sp, r4) =>
  (octDot r4).bind fun (q1, s1) =>
  (octDot s1).bind fun (q2, s2) =>
  (octDot s2).bind fun (q3, s3) =>
  (dstTail s3).map fun (q4, dp) =>
  { srcIp := o1 ++ '.' :: o2 ++ '.' :: o3 ++ '.' :: o4
    srcPortDigits := sp
    dstIp := q1 ++ '.' :: q2 ++ '.' :: q3 ++ '.' :: q4
    dstPortDigits := dp }

/-- Leftmost match of the ip/port regex (JS `String.prototype.match`). -/
def ipPortSearch : Str → Option IpPortMatch
  | [] => none
  | c :: rest =>
    match ipPortMatchAt (c :: rest) with
    | some m => some m
    | none => ipPortSearch rest

/-- One anchored attempt of `length\s+(\d+)` (`\s+` and `\d+` nonempty,
greedy; whitespace and digits are disjoint so the scan is deterministic). -/
def lengthTokenAt (l : Str) : Option Nat :=
  if (str "length").isPrefixOf l then
    let r := l.drop 6
    if (r.takeWhile isWS).length == 0 then none
    else
      let d := (r.dropWhile isWS).takeWhile Char.isDigit
      if d.length == 0 then none else some (digitsToNat d)
  else none

/-- Leftmost match of `length\s+(\d+)`. -/
def findLength : Str → Option Nat
  | [] => none
  | c :: rest =>
    match lengthTokenAt (c :: rest) with
    | some n => some n
    | none => findLength rest

def strUDP : Str := str "UDP"
def strICMP : Str := str "ICMP"
def strFlags : Str := str "Flags"
def strseq : Str := str "seq"
def strack : Str := str "ack"

/-- The `length <N>` size, 0 when the token is absent (the `size` local
starts at 0 and is only assigned on a match). -/
def lengthSize (l : Str) : Nat := (findLength l).getD 0

/-- The port-based refinement inside the `Flags` (TCP) branch. -/
def tcpRefine (ipLine : Str) (sp : Nat) : Protocol :=
  if sp == 80 && !containsStr strseq ipLine && !containsStr strack ipLine then .HTTP
  else if sp == 443 && !containsStr strseq ipLine && !containsStr strack ipLine then .HTTPS
  else if sp == 22 then .SSH
  else .TCP

structure ClassifyResult where
  protocol : Protocol
  size : Nat
  sourcePort : Nat
  destPort : Nat
deriving Repr, DecidableEq

/-- The protocol / size / port logic of `parseTcpdumpLine` after the ip/port
match: the UDP / ICMP / Flags marker chain (default TCP with size 0),
followed by the `protocol === 'UDP'` DNS override. -/
def classifyLine (ipLine : Str) (sp dp : Nat) : ClassifyResult :=
  let base : ClassifyResult :=
    if containsStr strUDP ipLine then
      { protocol := .UDP, size := lengthSize ipLine, sourcePort := sp, destPort := dp }
    else if containsStr strICMP ipLine then
      { protocol := .ICMP, size := lengthSize ipLine, sourcePort := 0, destPort := 0 }
    else if containsStr strFlags ipLine then
      { protocol := tcpRefine ipLine sp, size := lengthSize ipLine,
        sourcePort := sp, destPort := dp }
    else
      { protocol := .TCP, size := 0, sourcePort := sp, destPort := dp }
  if base.protocol == .UDP && (base.sourcePort == 53 || base.destPort == 53) then
    { base with protocol := .DNS }
  else base

/-- Packet assembly after a successful ip/port match (timestamp is
`Date.now()`, passed in as `now`). -/
def buildPacket (now : Nat) (info : Option Str) (ipLine : Str) (m : IpPortMatch) : Packet :=
  let sp := digitsToNat m.srcPortDigits
  let dp := digitsToNat m.dstPortDigits
  let r := classifyLine ipLine sp dp
  { timestamp := now, sourceIp := m.srcIp, destIp := m.dstIp,
    sourcePort := r.sourcePort, destPort := r.destPort,
    protocol := r.protocol, size := r.size, info := info }

/-- `PacketCaptureService.parseTcpdumpLine`.  The body of the source never
throws on these total models, so the `try`/`catch` collapses. -/
def parseTcpdumpLine (now : Nat) (line : Str) : Option Packet :=
  if line.all isWS then none
  else if containsStr (str "0.0.0.0.") line || containsStr (str " > 0.0.0.0.") line then none
  else
    match ipPortSearch (ipLineOf line) with
    | none => none
    | some m => some (buildPacket now (infoOf line) (ipLineOf line) m)

/-! ## JS `Map` model: insertion-ordered association list -/

/-- `Map.prototype.get`. -/
def alGet {α : Type} (k : Str) : List (Str × α) → Option α
  | [] => none
  | kv :: rest => if kv.1 == k then some kv.2 else alGet k rest

/-- `Map.prototype.has`. -/
def alHas {α : Type} (k : Str) (m : List (Str × α)) : Bool := (alGet k m).isSome

/-- `Map.prototype.set`: overwrite in place, else append. -/
def alSet {α : Type} (k : Str) (v : α) : List (Str × α) → List (Str × α)
  | [] => [(k, v)]
  | kv :: rest => if kv.1 == k then (k, v) :: rest else kv :: alSet k v rest

/-- `Map.prototype.delete`. -/
def alRemove {α : Type} (k : Str) (m : List (Str × α)) : List (Str × α) :=
  m.filter (fun kv => !(kv.1 == k))

/-! ## `NetworkAnalysisService` data -/

structure NetworkDevice where
  id : Str
  ip : Str
  mac : Str
  type : DeviceType
  x : ℚ
  y : ℚ
  trafficIn : Nat
  trafficOut : Nat
  lastSeen : Nat
deriving Repr, DecidableEq

structure NetworkConnection where
  id : Str
  sourceId : Str
  destId : Str
  protocol : Protocol
  traffic : Nat
  packets : Nat
  lastSeen : Nat
deriving Repr, DecidableEq

abbrev DeviceMap := List (Str × NetworkDevice)
abbrev ConnMap := List (Str × NetworkConnection)

/-- The mutable fields of a `NetworkAnalysisService` instance. -/
structure AnalysisState where
  devices : DeviceMap
  connections : ConnMap
  collisionCheckCounter : Nat
deriving Repr, DecidableEq

def emptyAnalysis : AnalysisState := { devices := [], connections := [], collisionCheckCounter := 0 }

/-- `NetworkAnalysisService.isSpecialAddress`. -/
def isSpecialAddress (ip : Str) : Bool :=
  strStarts (str "127.") ip ||
  strStarts (str "255.") ip ||
  strStarts (str "224.") ip ||
  strStarts (str "239.") ip ||
  ip == str "0.0.0.0" ||
  ip == str "255.255.255.255"

/-- `NetworkAnalysisService.detectDeviceType`. -/
def detectDeviceType (ip : Str) : DeviceType :=
  if strStarts (str "127.") ip || ip == str "0.0.0.0" then .UNKNOWN
  else if strEnds (str ".1") ip &&
      (strStarts (str "192.168.") ip || strStarts (str "10.") ip || strStarts (str "172.") ip) then
    .GATEWAY
  else if strStarts (str "192.168.") ip || strStarts (str "10.") ip || strStarts (str "172.") ip then
    .HOST
  else .HOST

/-- `NetworkAnalysisService.getDeviceRadius`:
`25 + Math.min((trafficIn + trafficOut) / 10000, 15)`. -/
def getDeviceRadius (d : NetworkDevice) : ℚ :=
  25 + min (((d.trafficIn + d.trafficOut : ℕ) : ℚ) / 10000) 15

/-- `distance < minDistance` with `distance = Math.sqrt(dx*dx + dy*dy)`,
rendered as the equivalent comparison of squares (both sides of the original
comparison are nonnegative). -/
def collide (dx dy minDist : ℚ) : Bool := dx * dx + dy * dy < minDist * minDist

/-- The clamp of a device into the canvas at the end of the resolvers. -/
def clampDevice (d : NetworkDevice) : NetworkDevice :=
  { d with x := max 50 (min 1950 d.x), y := max 50 (min 1450 d.y) }

/-- The abstract trigonometric displacement; see the header comment. -/
abbrev TrigPush := ℚ → ℚ → ℚ → ℚ × ℚ

/-- All `(i, j)` index pairs visited by the nested `for`-loops of
`resolveAllCollisions` over a map of `n` entries. -/
def pairIdx (n : Nat) : List (Nat × Nat) :=
  (List.range n).flatMap (fun i => (List.range n).map (fun j => (i, j)))

/-- The separation applied to a colliding pair: each endpoint moves by half
the overlap along the line between the centers (`pq` abstracts the
trigonometric displacement). -/
def pushApart (pq : ℚ × ℚ) (d1 d2 : NetworkDevice) : NetworkDevice × NetworkDevice :=
  ({ d1 with x := d1.x - pq.1, y := d1.y - pq.2 },
   { d2 with x := d2.x + pq.1, y := d2.y + pq.2 })

/-- The body of the pairwise loop of `resolveAllCollisions` for one `(i, j)`
index pair: pairs with `ip1 >= ip2` are skipped, colliding pairs are pushed
apart, and the second component is the `hasCollision` flag. -/
def passStep (tp : TrigPush) (st : DeviceMap × Bool) (ij : Nat × Nat) : DeviceMap × Bool :=
  match st.1[ij.1]?, st.1[ij.2]? with
  | some (k1, d1), some (k2, d2) =>
    if strLt k1 k2 then
      let minD := getDeviceRadius d1 + getDeviceRadius d2 + 50
      let dx := d2.x - d1.x
      let dy := d2.y - d1.y
      if collide dx dy minD then
        let r := pushApart (tp dx dy minD) d1 d2
        ((st.1.set ij.1 (k1, r.1)).set ij.2 (k2, r.2), true)
      else st
    else st
  | _, _ => st

/-- One iteration of the pairwise loop of
`NetworkAnalysisService.resolveAllCollisions`. -/
def onePass (tp : TrigPush) (ds0 : DeviceMap) : DeviceMap × Bool :=
  (pairIdx ds0.length).foldl (passStep tp) (ds0, false)

/-- The clamp applied to every device after a colliding iteration. -/
def clampAll (ds : DeviceMap) : DeviceMap := ds.map (fun kv => (kv.1, clampDevice kv.2))

/-- The `for (attempt …)` loop of `resolveAllCollisions`, by fuel: break
without clamping when an iteration found no collision. -/
def resolveAllAux (tp : TrigPush) : Nat → DeviceMap → DeviceMap
  | 0, ds => ds
  | n + 1, ds =>
    let r := onePass tp ds
    if r.2 then resolveAllAux tp n (clampAll r.1) else r.1

/-- `NetworkAnalysisService.resolveAllCollisions` (`separationAttempts = 50`). -/
def resolveAllCollisions (tp : TrigPush) (ds : DeviceMap) : DeviceMap :=
  resolveAllAux tp 50 ds

/-- The body of the loop of `resolveCollisions` (the single-device variant)
for one index `i`: the new device is an entry of the map, mutated through
its key `newId`; `nr` is `newDeviceRadius`, computed once before the loop. -/
def singleStep (tp : TrigPush) (newId : Str) (nr : ℚ) (st : DeviceMap × Bool) (i : Nat) :
    DeviceMap × Bool :=
  match alGet newId st.1, st.1[i]? with
  | some nd, some (ip, d) =>
    if ip == newId then st
    else
      let minD := nr + getDeviceRadius d + 50
      let dx := d.x - nd.x
      let dy := d.y - nd.y
      if collide dx dy minD then
        let r := pushApart (tp dx dy minD) nd d
        (alSet newId r.1 st.1 |>.set i (ip, r.2), true)
      else st
  | _, _ => st

/-- One iteration of the loop of `NetworkAnalysisService.resolveCollisions`. -/
def onePassSingle (tp : TrigPush) (newId : Str) (nr : ℚ) (ds0 : DeviceMap) : DeviceMap × Bool :=
  (List.range ds0.length).foldl (singleStep tp newId nr) (ds0, false)

def resolveCollisionsAux (tp : TrigPush) (newId : Str) (nr : ℚ) : Nat → DeviceMap → DeviceMap
  | 0, ds => ds
  | n + 1, ds =>
    let r := onePassSingle tp newId nr ds
    if r.2 then resolveCollisionsAux tp newId nr n r.1 else r.1

/-- `NetworkAnalysisService.resolveCollisions` (`separationAttempts = 100`;
only the new device is clamped afterwards). -/
def resolveCollisions (tp : TrigPush) (newId : Str) (ds : DeviceMap) : DeviceMap :=
  let nr := match alGet newId ds with
    | some d => getDeviceRadius d
    | none => 0
  let ds' := resolveCollisionsAux tp newId nr 100 ds
  match alGet newId ds' with
  | some nd => alSet newId (clampDevice nd) ds'
  | none => ds'

/-- The device record built by the creation branch of `ensureDeviceExists`
(`rnd ip` supplies the two `Math.random()` draws). -/
def mkDevice (rnd : Str → ℚ × ℚ) (ip mac : Str) : NetworkDevice :=
  { id := ip, ip := ip, mac := mac, type := detectDeviceType ip,
    x := (rnd ip).1 * 2000, y := (rnd ip).2 * 1500,
    trafficIn := 0, trafficOut := 0, lastSeen := 0 }

/-- `NetworkAnalysisService.ensureDeviceExists`. -/
def ensureDeviceExists (tp : TrigPush) (rnd : Str → ℚ × ℚ) (ip mac : Str)
    (ds : DeviceMap) : DeviceMap :=
  match alGet ip ds with
  | none => resolveCollisions tp ip (alSet ip (mkDevice rnd ip mac) ds)
  | some device =>
    if mac != [] && device.mac == [] then alSet ip { device with mac := mac } ds else ds

/-- The regex `MAC:\s*([a-fA-F0-9:]+)\s*->` anchored at one position (the
hex-colon class is disjoint from whitespace and from `-`, so the greedy scan
is the unique match). -/
def srcMacAt (l : Str) : Option Str :=
  if (str "MAC:").isPrefixOf l then
    let r := (l.drop 4).dropWhile isWS
    let h := r.takeWhile isHexColon
    if h.length == 0 then none
    else if (str "->").isPrefixOf ((r.dropWhile isHexColon).dropWhile isWS) then some h
    else none
  else none

def findSrcMac : Str → Option Str
  | [] => none
  | c :: rest =>
    match srcMacAt (c :: rest) with
    | some h => some h
    | none => findSrcMac rest

/-- The regex `->\s*([a-fA-F0-9:]+)$` anchored at one position. -/
def dstMacAt (l : Str) : Option Str :=
  if (str "->").isPrefixOf l then
    let r := (l.drop 2).dropWhile isWS
    if r.length != 0 && r.all isHexColon then some r else none
  else none

def findDstMac : Str → Option Str
  | [] => none
  | c :: rest =>
    match dstMacAt (c :: rest) with
    | some h => some h
    | none => findDstMac rest

/-- `packet.info?.match(/MAC:\s*([a-fA-F0-9:]+)\s*->/)?.[1] || ''`. -/
def sourceMacOf (info : Option Str) : Str :=
  match info with
  | none => []
  | some i => (findSrcMac i).getD []

/-- `packet.info?.match(r)?.[1] || ''` for the destination-MAC regex `r`
(the regex `->\s*([a-fA-F0-9:]+)$`). -/
def destMacOf (info : Option Str) : Str :=
  match info with
  | none => []
  | some i => (findDstMac i).getD []

/-- `NetworkAnalysisService.updateDevice`. -/
def updateDevice (tp : TrigPush) (rnd : Str → ℚ × ℚ) (p : Packet) (ds : DeviceMap) : DeviceMap :=
  let ds1 :=
    if !isSpecialAddress p.sourceIp then
      ensureDeviceExists tp rnd p.sourceIp (sourceMacOf p.info) ds
    else ds
  if !isSpecialAddress p.destIp then
    ensureDeviceExists tp rnd p.destIp (destMacOf p.info) ds1
  else ds1

def protoName : Protocol → Str
  | .TCP => str "TCP"
  | .UDP => str "UDP"
  | .ICMP => str "ICMP"
  | .HTTP => str "HTTP"
  | .HTTPS => str "HTTPS"
  | .DNS => str "DNS"
  | .SSH => str "SSH"
  | .FTP => str "FTP"
  | .SMTP => str "SMTP"
  | .OTHER => str "OTHER"

/-- `NetworkAnalysisService.getConnectionId`:
`${sourceIp}:${sourcePort}-${destIp}:${destPort}-${protocol}`. -/
def getConnectionId (p : Packet) : Str :=
  p.sourceIp ++ ':' :: natDigits p.sourcePort ++ '-' ::
  p.destIp ++ ':' :: natDigits p.destPort ++ '-' :: protoName p.protocol

/-- The `if (sourceDevice)` block of `updateConnection`: add the packet size
to the source device's `trafficOut` and stamp its `lastSeen`. -/
def bumpOut (p : Packet) (ds : DeviceMap) : DeviceMap :=
  match alGet p.sourceIp ds with
  | some d =>
    alSet p.sourceIp { d with trafficOut := d.trafficOut + p.size, lastSeen := p.timestamp } ds
  | none => ds

/-- The `if (destDevice)` block of `updateConnection`: add the packet size
to the destination device's `trafficIn` and stamp its `lastSeen`. -/
def bumpIn (p : Packet) (ds : DeviceMap) : DeviceMap :=
  match alGet p.destIp ds with
  | some d =>
    alSet p.destIp { d with trafficIn := d.trafficIn + p.size, lastSeen := p.timestamp } ds
  | none => ds

/-- The connection record written back by `updateConnection`: the existing
record for the key (or a fresh zeroed one), with its counters bumped and its
`lastSeen` overwritten by the packet timestamp. -/
def connAfter (p : Packet) (conns : ConnMap) : NetworkConnection :=
  let connection :=
    match alGet (getConnectionId p) conns with
    | some c => c
    | none =>
      { id := getConnectionId p, sourceId := p.sourceIp, destId := p.destIp,
        protocol := p.protocol, traffic := 0, packets := 0, lastSeen := p.timestamp }
  { connection with
    traffic := connection.traffic + p.size
    packets := connection.packets + 1
    lastSeen := p.timestamp }

/-- `NetworkAnalysisService.updateConnection` (including its updates of the
device traffic counters). -/
def updateConnection (p : Packet) (st : AnalysisState) : AnalysisState :=
  { st with
    devices := bumpIn p (bumpOut p st.devices)
    connections := alSet (getConnectionId p) (connAfter p st.connections) st.connections }

/-- `NetworkAnalysisService.analyzePacket`. -/
def analyzePacket (tp : TrigPush) (rnd : Str → ℚ × ℚ) (p : Packet) (st : AnalysisState) :
    AnalysisState :=
  updateConnection p { st with devices := updateDevice tp rnd p st.devices }

/-- The snapshot returned by `getNetworkState` (`flows` is always empty and
is omitted). -/
structure NetworkStateSnap where
  devices : DeviceMap
  connections : ConnMap
deriving Repr, DecidableEq

/-- `NetworkAnalysisService.getNetworkState` (`now` is `Date.now()`); returns
the snapshot and the successor service state. -/
def getNetworkState (tp : TrigPush) (now : Nat) (st : AnalysisState) :
    NetworkStateSnap × AnalysisState :=
  let counter := st.collisionCheckCounter + 1
  let devs := if 10 ≤ counter then resolveAllCollisions tp st.devices else st.devices
  let counter' := if 10 ≤ counter then 0 else counter
  let activeDevices := devs.filter (fun kv => (now : ℤ) - (kv.2.lastSeen : ℤ) < 300000)
  let activeConnections :=
    st.connections.filter (fun kv => (now : ℤ) - (kv.2.lastSeen : ℤ) < 300000)
  ({ devices := activeDevices.map (fun kv => (kv.2.id, kv.2)),
     connections := activeConnections.map (fun kv => (kv.2.id, kv.2)) },
   { st with devices := devs, collisionCheckCounter := counter' })

/-! ## `PacketCaptureService` lifecycle (`startMultiple` and the stop
operations).

`start` is an `async` method whose body contains no `await`: it either
throws synchronously (capture already in progress on that interface, the
only `throw` in its body) or spawns the child, registers it in
`captureProcesses`, installs the event handlers and resolves at once.  A
failed spawn is reported only later, through the child's asynchronous
`error` event, whose handler stops exactly the failed interface; by then
the promise has already resolved, so a launch failure is never seen by
the `.catch` in `startMultiple`.  That event is modelled separately as
`launchErrorEvent`, to be applied to whatever state the resolved call
left behind.  Error messages become a tagged error type carrying the
interface names they mention. -/

structure CaptureProcess where
  interfaceName : Str
  filter : Option Str
  packetCount : Nat
deriving Repr, DecidableEq

structure CaptureState where
  captureProcesses : List (Str × CaptureProcess)
  totalPacketCount : Nat
deriving Repr, DecidableEq

inductive CaptureError
  | alreadyInProgress (names : List Str)
  | noInterface
deriving Repr, DecidableEq

def mkCaptureProcess (iname : Str) (filt : Option Str) : CaptureProcess :=
  { interfaceName := iname, filter := filt, packetCount := 0 }

/-- `PacketCaptureService.stopInterface`. -/
def stopInterface (iname : Str) (st : CaptureState) : CaptureState :=
  if alHas iname st.captureProcesses then
    { st with captureProcesses := alRemove iname st.captureProcesses }
  else st

/-- `PacketCaptureService.stopAllInterfaces`: early return when the map is
empty (the total counter is then not reset), otherwise kill everything,
clear the map, and zero the total counter. -/
def stopAllInterfaces (st : CaptureState) : CaptureState :=
  if st.captureProcesses.isEmpty then st
  else { captureProcesses := [], totalPacketCount := 0 }

/-- `PacketCaptureService.start` on one interface: the returned promise
settles before any child event can fire, so its outcome does not depend on
whether the spawn will later succeed.  The only rejection is the
synchronous already-in-progress throw; otherwise the process record
(`mkCaptureProcess`) is registered and the promise resolves. -/
def start (iname : Str) (filt : Option Str) (st : CaptureState) :
    Option CaptureError × CaptureState :=
  if alHas iname st.captureProcesses then (some (.alreadyInProgress [iname]), st)
  else
    (none, { st with
      captureProcesses := alSet iname (mkCaptureProcess iname filt) st.captureProcesses })

/-- The `error` handler installed on the spawned child: a launch failure
arrives asynchronously, after `start` resolved, and its handler calls
`stopInterface(interfaceName)` — stopping exactly the failed interface. -/
def launchErrorEvent (iname : Str) (st : CaptureState) : CaptureState :=
  stopInterface iname st

/-- One `start` call of the `startMultiple` loop (the bodies run one after
the other during the `.map`, before any microtask), accumulating the
synchronous rejections. -/
def startFoldStep (filt : Option Str)
    (acc : List CaptureError × CaptureState) (n : Str) : List CaptureError × CaptureState :=
  let s := start n filt acc.2
  (acc.1 ++ s.1.toList, s.2)

/-- The end of `startMultiple`: if any of its `start` calls rejected, the
`.catch` handler has run `stopAllInterfaces()` and the `Promise.all`
rejects with the first error. -/
def finishStart : List CaptureError × CaptureState → Option CaptureError × CaptureState
  | ([], st') => (none, st')
  | (e :: _, st') => (some e, stopAllInterfaces st')

/-- `PacketCaptureService.startMultiple`. -/
def startMultiple (names : List Str) (filt : Option Str)
    (st : CaptureState) : Option CaptureError × CaptureState :=
  if names.isEmpty then (some .noInterface, st)
  else
    let dups := names.filter (fun n => alHas n st.captureProcesses)
    if !dups.isEmpty then (some (.alreadyInProgress dups), st)
    else
      finishStart (names.foldl (startFoldStep filt) (([] : List CaptureError), st))

/-! ## Association-list lemmas -/

theorem alGet_set_self {α : Type} (k : Str) (v : α) (m : List (Str × α)) :
    alGet k (alSet k v m) = some v := by
  induction m with
  | nil => simp [alGet, alSet]
  | cons kv rest ih =>
    by_cases h : kv.1 = k
    · simp [alSet, alGet, h]
    · simp only [alSet, alGet, beq_iff_eq, h, if_false]
      exact ih

theorem alGet_set_other {α : Type} {k k' : Str} (h : k ≠ k') (v : α) (m : List (Str × α)) :
    alGet k (alSet k' v m) = alGet k m := by
  induction m with
  | nil => simp [alGet, alSet, Ne.symm h]
  | cons kv rest ih =>
    by_cases hk : kv.1 = k'
    · simp only [alSet, alGet, beq_iff_eq, hk, if_true]
      have : ¬(k' = k) := fun hh => h hh.symm
      simp [this, hk.symm ▸ this, alGet]
    · simp only [alSet, alGet, beq_iff_eq, hk, if_false]
      by_cases hkk : kv.1 = k
      · simp [alGet, hkk]
      · simp only [alGet, beq_iff_eq, hkk, if_false]
        exact ih

theorem alHas_set {α : Type} (k k' : Str) (v : α) (m : List (Str × α)) :
    alHas k (alSet k' v m) = (alHas k m || k == k') := by
  by_cases h : k = k'
  · subst h
    simp [alHas, alGet_set_self]
  · simp [alHas, alGet_set_other h, h]

theorem alGet_map_snd {α β : Type} (f : α → β) (k : Str) (m : List (Str × α)) :
    alGet k (m.map (fun kv => (kv.1, f kv.2))) = (alGet k m).map f := by
  induction m with
  | nil => simp [alGet]
  | cons kv rest ih =>
    by_cases h : kv.1 = k
    · simp [alGet, h]
    · simp only [List.map_cons, alGet, beq_iff_eq, h, if_false]
      exact ih

/-- Replacing a list element by one with the same image under `f` does not
change the mapped list. -/
theorem map_set_congr {α β : Type} (f : α → β) :
    ∀ (l : List α) (i : Nat) (a b : α), l[i]? = some b → f a = f b →
      (l.set i a).map f = l.map f
  | [], i, a, b, h, _ => by simp at h
  | c :: t, 0, a, b, h, hf => by
    simp only [List.getElem?_cons_zero, Option.some.injEq] at h
    subst h
    simp [List.set, hf]
  | c :: t, i + 1, a, b, h, hf => by
    simp only [List.getElem?_cons_succ] at h
    simp [List.set, map_set_congr f t i a b h hf]

/-- Updating a present key with a value of the same image under `f` does not
change the value-mapped association list. -/
theorem map_alSet_congr {α β : Type} (f : α → β) (k : Str) :
    ∀ (m : List (Str × α)) (v w : α), alGet k m = some w → f v = f w →
      (alSet k v m).map (fun kv => (kv.1, f kv.2)) = m.map (fun kv => (kv.1, f kv.2))
  | [], v, w, h, _ => by simp [alGet] at h
  | kv :: rest, v, w, h, hf => by
    by_cases hk : kv.1 = k
    · simp only [alGet, beq_iff_eq, hk, if_true, Option.some.injEq] at h
      subst h
      simp [alSet, hk, hf]
    · simp only [alGet, beq_iff_eq, hk, if_false] at h
      simp [alSet, hk, map_alSet_congr f k rest v w h hf]

/-! ## Core preservation through the layout resolvers

`devCore` is every `NetworkDevice` field except the coordinates; both
collision resolvers only move coordinates, a fact used repeatedly by the
state-store proofs. -/

def devCore (d : NetworkDevice) : NetworkDevice := { d with x := 0, y := 0 }

def coreMap (ds : DeviceMap) : DeviceMap := ds.map (fun kv => (kv.1, devCore kv.2))

theorem strLt_irrefl (s : Str) : strLt s s = false := by
  induction s with
  | nil => rfl
  | cons c cs ih => simp [strLt, ih]

theorem devCore_pushApart_fst (pq : ℚ × ℚ) (d1 d2 : NetworkDevice) :
    devCore (pushApart pq d1 d2).1 = devCore d1 := rfl

theorem devCore_pushApart_snd (pq : ℚ × ℚ) (d1 d2 : NetworkDevice) :
    devCore (pushApart pq d1 d2).2 = devCore d2 := rfl

theorem coreMap_set_congr (ds : DeviceMap) (i : Nat) (k : Str) (d d' : NetworkDevice)
    (h : ds[i]? = some (k, d)) (hc : devCore d' = devCore d) :
    coreMap (ds.set i (k, d')) = coreMap ds :=
  map_set_congr _ ds i (k, d') (k, d) h (by rw [show devCore d' = devCore d from hc])

theorem coreMap_alSet_congr (ds : DeviceMap) (k : Str) (d d' : NetworkDevice)
    (h : alGet k ds = some d) (hc : devCore d' = devCore d) :
    coreMap (alSet k d' ds) = coreMap ds :=
  map_alSet_congr _ k ds d' d h (by rw [show devCore d' = devCore d from hc])

theorem getElem?_alSet_ne {α : Type} (k : Str) (v : α) :
    ∀ (m : List (Str × α)) (i : Nat) (kv' : Str × α),
      m[i]? = some kv' → kv'.1 ≠ k → (alSet k v m)[i]? = some kv'
  | [], i, kv', h, _ => by simp at h
  | kv :: rest, 0, kv', h, hne => by
    simp only [List.getElem?_cons_zero, Option.some.injEq] at h
    subst h
    simp [alSet, hne]
  | kv :: rest, i + 1, kv', h, hne => by
    simp only [List.getElem?_cons_succ] at h
    by_cases hk : kv.1 = k
    · simp only [alSet, beq_iff_eq, hk, if_true, List.getElem?_cons_succ]
      exact h
    · simp only [alSet, beq_iff_eq, hk, if_false, List.getElem?_cons_succ]
      exact getElem?_alSet_ne k v rest i kv' h hne

theorem coreMap_passStep (tp : TrigPush) (st : DeviceMap × Bool) (ij : Nat × Nat) :
    coreMap (passStep tp st ij).1 = coreMap st.1 := by
  unfold passStep
  rcases h1 : st.1[ij.1]? with _ | ⟨k1, d1⟩ <;> rcases h2 : st.1[ij.2]? with _ | ⟨k2, d2⟩ <;>
    simp only [h1, h2]
  by_cases hlt : strLt k1 k2 = true
  · simp only [hlt, if_true]
    by_cases hc : collide (d2.x - d1.x) (d2.y - d1.y)
        (getDeviceRadius d1 + getDeviceRadius d2 + 50) = true
    · simp only [hc, if_true]
      have hne : ij.1 ≠ ij.2 := by
        intro hh
        rw [hh] at h1
        have h3 : (k2, d2) = (k1, d1) := by
          have := h2.symm.trans h1
          exact Option.some.injEq _ _ ▸ this
        have hk : k2 = k1 := congrArg Prod.fst h3
        rw [← hk] at hlt
        rw [strLt_irrefl] at hlt
        exact Bool.false_ne_true hlt
      have h2' : (st.1.set ij.1 (k1, (pushApart (tp (d2.x - d1.x) (d2.y - d1.y)
          (getDeviceRadius d1 + getDeviceRadius d2 + 50)) d1 d2).1))[ij.2]? = some (k2, d2) := by
        rw [List.getElem?_set]
        simp [hne, h2]
      exact (coreMap_set_congr _ ij.2 k2 d2 _ h2' (devCore_pushApart_snd _ _ _)).trans
        (coreMap_set_congr _ ij.1 k1 d1 _ h1 (devCore_pushApart_fst _ _ _))
    · simp [hc]
  · simp only [Bool.not_eq_true] at hlt
    simp [hlt]

theorem coreMap_foldl_passStep (tp : TrigPush) (l : List (Nat × Nat)) :
    ∀ st : DeviceMap × Bool, coreMap (l.foldl (passStep tp) st).1 = coreMap st.1 := by
  induction l with
  | nil => intro st; rfl
  | cons ij rest ih =>
    intro st
    rw [List.foldl_cons, ih, coreMap_passStep]

theorem coreMap_onePass (tp : TrigPush) (ds0 : DeviceMap) :
    coreMap (onePass tp ds0).1 = coreMap ds0 := by
  unfold onePass
  exact coreMap_foldl_passStep tp _ (ds0, false)

theorem coreMap_clampAll (ds : DeviceMap) : coreMap (clampAll ds) = coreMap ds := by
  unfold coreMap clampAll
  rw [List.map_map]
  rfl

theorem coreMap_resolveAllAux (tp : TrigPush) :
    ∀ (n : Nat) (ds : DeviceMap), coreMap (resolveAllAux tp n ds) = coreMap ds := by
  intro n
  induction n with
  | zero => intro ds; rfl
  | succ m ih =>
    intro ds
    unfold resolveAllAux
    by_cases h : (onePass tp ds).2 = true
    · simp only [h, if_true]
      rw [ih, coreMap_clampAll, coreMap_onePass]
    · simp only [Bool.not_eq_true] at h
      simp only [h, Bool.false_eq_true, if_false]
      exact coreMap_onePass tp ds

theorem coreMap_resolveAllCollisions (tp : TrigPush) (ds : DeviceMap) :
    coreMap (resolveAllCollisions tp ds) = coreMap ds :=
  coreMap_resolveAllAux tp 50 ds

theorem coreMap_singleStep (tp : TrigPush) (newId : Str) (nr : ℚ) (st : DeviceMap × Bool)
    (i : Nat) : coreMap (singleStep tp newId nr st i).1 = coreMap st.1 := by
  unfold singleStep
  rcases hn : alGet newId st.1 with _ | nd <;> rcases h1 : st.1[i]? with _ | ⟨ip, d⟩ <;>
    simp only [hn, h1]
  by_cases hip : (ip == newId) = true
  · simp [hip]
  · simp only [hip, Bool.false_eq_true, if_false]
    by_cases hc : collide (d.x - nd.x) (d.y - nd.y) (nr + getDeviceRadius d + 50) = true
    · simp only [hc, if_true]
      have hipne : ip ≠ newId := by
        intro hh
        rw [hh] at hip
        simp at hip
      have h1' : (alSet newId (pushApart (tp (d.x - nd.x) (d.y - nd.y)
          (nr + getDeviceRadius d + 50)) nd d).1 st.1)[i]? = some (ip, d) :=
        getElem?_alSet_ne newId _ st.1 i (ip, d) h1 hipne
      exact (coreMap_set_congr _ i ip d _ h1' (devCore_pushApart_snd _ _ _)).trans
        (coreMap_alSet_congr _ newId nd _ hn (devCore_pushApart_fst _ _ _))
    · simp [hc]

theorem coreMap_foldl_singleStep (tp : TrigPush) (newId : Str) (nr : ℚ) (l : List Nat) :
    ∀ st : DeviceMap × Bool, coreMap (l.foldl (singleStep tp newId nr) st).1 = coreMap st.1 := by
  induction l with
  | nil => intro st; rfl
  | cons i rest ih =>
    intro st
    rw [List.foldl_cons, ih, coreMap_singleStep]

theorem coreMap_onePassSingle (tp : TrigPush) (newId : Str) (nr : ℚ) (ds0 : DeviceMap) :
    coreMap (onePassSingle tp newId nr ds0).1 = coreMap ds0 :=
  coreMap_foldl_singleStep tp newId nr _ (ds0, false)

theorem coreMap_resolveCollisionsAux (tp : TrigPush) (newId : Str) (nr : ℚ) :
    ∀ (n : Nat) (ds : DeviceMap), coreMap (resolveCollisionsAux tp newId nr n ds) = coreMap ds := by
  intro n
  induction n with
  | zero => intro ds; rfl
  | succ m ih =>
    intro ds
    unfold resolveCollisionsAux
    by_cases h : (onePassSingle tp newId nr ds).2 = true
    · simp only [h, if_true]
      rw [ih, coreMap_onePassSingle]
    · simp only [Bool.not_eq_true] at h
      simp only [h, Bool.false_eq_true, if_false]
      exact coreMap_onePassSingle tp newId nr ds

theorem coreMap_resolveCollisions (tp : TrigPush) (newId : Str) (ds : DeviceMap) :
    coreMap (resolveCollisions tp newId ds) = coreMap ds := by
  unfold resolveCollisions
  rcases hn : alGet newId (resolveCollisionsAux tp newId
      (match alGet newId ds with | some d => getDeviceRadius d | none => 0) 100 ds) with _ | nd
  · simp only [hn]
    exact coreMap_resolveCollisionsAux tp newId _ 100 ds
  · simp only [hn]
    calc coreMap (alSet newId (clampDevice nd) _)
        = coreMap (resolveCollisionsAux tp newId _ 100 ds) :=
          map_alSet_congr _ newId _ _ nd hn rfl
      _ = coreMap ds := coreMap_resolveCollisionsAux tp newId _ 100 ds

/-! ## State-store projections and their update laws -/

/-- Cumulative inbound bytes of a device key, 0 when absent. -/
def devIn (k : Str) (ds : DeviceMap) : Nat :=
  match alGet k ds with
  | some d => d.trafficIn
  | none => 0

/-- Cumulative outbound bytes of a device key, 0 when absent. -/
def devOut (k : Str) (ds : DeviceMap) : Nat :=
  match alGet k ds with
  | some d => d.trafficOut
  | none => 0

/-- Cumulative bytes of a connection key, 0 when absent. -/
def connTraffic (k : Str) (st : AnalysisState) : Nat :=
  match alGet k st.connections with
  | some c => c.traffic
  | none => 0

/-- Cumulative packet count of a connection key, 0 when absent. -/
def connPackets (k : Str) (st : AnalysisState) : Nat :=
  match alGet k st.connections with
  | some c => c.packets
  | none => 0

/-- Last-seen timestamp of a connection key. -/
def connSeen (k : Str) (st : AnalysisState) : Option Nat :=
  (alGet k st.connections).map (fun c => c.lastSeen)

theorem alGet_coreMap (k : Str) (ds : DeviceMap) :
    alGet k (coreMap ds) = (alGet k ds).map devCore :=
  alGet_map_snd devCore k ds

theorem alGet_devCore_congr {ds1 ds2 : DeviceMap} (h : coreMap ds1 = coreMap ds2) (k : Str) :
    (alGet k ds1).map devCore = (alGet k ds2).map devCore := by
  rw [← alGet_coreMap, ← alGet_coreMap, h]

theorem alGet_resolveCollisions_core (tp : TrigPush) (newId k : Str) (ds : DeviceMap) :
    (alGet k (resolveCollisions tp newId ds)).map devCore = (alGet k ds).map devCore :=
  alGet_devCore_congr (coreMap_resolveCollisions tp newId ds) k

/-- The complete behaviour of `ensureDeviceExists` on the core (non-layout)
fields of every key. -/
theorem ensure_get_core (tp : TrigPush) (rnd : Str → ℚ × ℚ) (ip mac k : Str) (ds : DeviceMap) :
    (alGet k (ensureDeviceExists tp rnd ip mac ds)).map devCore =
      match alGet ip ds with
      | none =>
        if k = ip then some (devCore (mkDevice rnd ip mac)) else (alGet k ds).map devCore
      | some device =>
        if k = ip ∧ mac ≠ [] ∧ device.mac = [] then some (devCore { device with mac := mac })
        else (alGet k ds).map devCore := by
  unfold ensureDeviceExists
  rcases hip : alGet ip ds with _ | device
  · simp only [hip]
    rw [alGet_resolveCollisions_core]
    by_cases hk : k = ip
    · subst hk
      rw [alGet_set_self]
      simp
    · rw [alGet_set_other hk]
      simp [hk]
  · simp only [hip]
    by_cases hcond : (mac != [] && device.mac == []) = true
    · simp only [hcond, if_true]
      have hmac : mac ≠ [] ∧ device.mac = [] := by
        simp only [Bool.and_eq_true, bne_iff_ne, beq_iff_eq] at hcond
        exact hcond
      by_cases hk : k = ip
      · subst hk
        rw [alGet_set_self]
        simp [hmac]
      · rw [alGet_set_other hk]
        simp [hk]
    · simp only [hcond, Bool.false_eq_true, if_false]
      have hmac : ¬(mac ≠ [] ∧ device.mac = []) := by
        simp only [Bool.and_eq_true, bne_iff_ne, beq_iff_eq] at hcond
        exact hcond
      by_cases hk : k = ip
      · subst hk
        rw [hip]
        simp [hmac]
      · simp [hk]

/-- Key membership after `ensureDeviceExists`. -/
theorem ensure_has (tp : TrigPush) (rnd : Str → ℚ × ℚ) (ip mac k : Str) (ds : DeviceMap) :
    alHas k (ensureDeviceExists tp rnd ip mac ds) = (alHas k ds || k == ip) := by
  have h := ensure_get_core tp rnd ip mac k ds
  have hs : ∀ o : Option NetworkDevice, (o.map devCore).isSome = o.isSome := by
    intro o
    rcases o <;> rfl
  unfold alHas
  rw [← hs, h]
  rcases hip : alGet ip ds with _ | device
  · by_cases hk : k = ip
    · subst hk
      simp [hip, alHas]
    · simp [hk, hs, alHas]
  · by_cases hk : k = ip
    · subst hk
      by_cases hm : mac ≠ [] ∧ device.mac = [] <;> simp [hip, hm, hs, alHas]
    · simp [hk, hs, alHas]

/-- `ensureDeviceExists` never changes traffic counters (creation starts
them at 0, the default for an absent key). -/
theorem ensure_devIn (tp : TrigPush) (rnd : Str → ℚ × ℚ) (ip mac k : Str) (ds : DeviceMap) :
    devIn k (ensureDeviceExists tp rnd ip mac ds) = devIn k ds := by
  have h := ensure_get_core tp rnd ip mac k ds
  have hproj : ∀ o : Option NetworkDevice,
      (match o with | some d => d.trafficIn | none => 0) =
      (match o.map devCore with | some d => d.trafficIn | none => 0) := by
    intro o
    rcases o <;> rfl
  unfold devIn
  rw [hproj, h]
  rcases hip : alGet ip ds with _ | device
  · by_cases hk : k = ip
    · subst hk
      simp [hip, mkDevice, devCore]
    · simp only [hk, if_false]
      rw [← hproj]
  · by_cases hk : k = ip
    · subst hk
      by_cases hm : mac ≠ [] ∧ device.mac = [] <;> simp [hm, hip, devCore]
    · have : ¬(k = ip ∧ mac ≠ [] ∧ device.mac = []) := fun hh => hk hh.1
      simp only [this, if_false]
      rw [← hproj]

theorem ensure_devOut (tp : TrigPush) (rnd : Str → ℚ × ℚ) (ip mac k : Str) (ds : DeviceMap) :
    devOut k (ensureDeviceExists tp rnd ip mac ds) = devOut k ds := by
  have h := ensure_get_core tp rnd ip mac k ds
  have hproj : ∀ o : Option NetworkDevice,
      (match o with | some d => d.trafficOut | none => 0) =
      (match o.map devCore with | some d => d.trafficOut | none => 0) := by
    intro o
    rcases o <;> rfl
  unfold devOut
  rw [hproj, h]
  rcases hip : alGet ip ds with _ | device
  · by_cases hk : k = ip
    · subst hk
      simp [hip, mkDevice, devCore]
    · simp only [hk, if_false]
      rw [← hproj]
  · by_cases hk : k = ip
    · subst hk
      by_cases hm : mac ≠ [] ∧ device.mac = [] <;> simp [hm, hip, devCore]
    · have : ¬(k = ip ∧ mac ≠ [] ∧ device.mac = []) := fun hh => hk hh.1
      simp only [this, if_false]
      rw [← hproj]

theorem uc_connTraffic (p : Packet) (st : AnalysisState) (k : Str) :
    connTraffic k (updateConnection p st) =
      connTraffic k st + (if k = getConnectionId p then p.size else 0) := by
  unfold updateConnection connTraffic
  dsimp only
  by_cases hk : k = getConnectionId p
  · subst hk
    rw [alGet_set_self]
    unfold connAfter
    rcases h : alGet (getConnectionId p) st.connections with _ | c <;> simp [h]
  · rw [alGet_set_other hk]
    simp [hk]

theorem uc_connPackets (p : Packet) (st : AnalysisState) (k : Str) :
    connPackets k (updateConnection p st) =
      connPackets k st + (if k = getConnectionId p then 1 else 0) := by
  unfold updateConnection connPackets
  dsimp only
  by_cases hk : k = getConnectionId p
  · subst hk
    rw [alGet_set_self]
    unfold connAfter
    rcases h : alGet (getConnectionId p) st.connections with _ | c <;> simp [h]
  · rw [alGet_set_other hk]
    simp [hk]

theorem uc_connSeen (p : Packet) (st : AnalysisState) (k : Str) :
    connSeen k (updateConnection p st) =
      if k = getConnectionId p then some p.timestamp else connSeen k st := by
  unfold updateConnection connSeen
  dsimp only
  by_cases hk : k = getConnectionId p
  · subst hk
    rw [alGet_set_self]
    unfold connAfter
    rcases h : alGet (getConnectionId p) st.connections with _ | c <;> simp [h]
  · rw [alGet_set_other hk]
    simp [hk]

theorem uc_connHas (p : Packet) (st : AnalysisState) (k : Str) :
    alHas k (updateConnection p st).connections =
      (alHas k st.connections || k == getConnectionId p) := by
  unfold updateConnection
  dsimp only
  exact alHas_set k _ _ st.connections

/-- Device type of a key. -/
def typeOf (k : Str) (ds : DeviceMap) : Option DeviceType := (alGet k ds).map (fun d => d.type)

/-- MAC of a key. -/
def macOf (k : Str) (ds : DeviceMap) : Option Str := (alGet k ds).map (fun d => d.mac)

theorem bumpOut_devOut (p : Packet) (ds : DeviceMap) (k : Str) :
    devOut k (bumpOut p ds) = devOut k ds + (if k = p.sourceIp ∧ alHas k ds then p.size else 0) := by
  unfold bumpOut
  rcases h1 : alGet p.sourceIp ds with _ | d <;> simp only [h1]
  · by_cases hk : k = p.sourceIp
    · subst hk
      simp [alHas, h1]
    · simp [hk]
  · unfold devOut
    by_cases hk : k = p.sourceIp
    · subst hk
      rw [alGet_set_self, h1]
      simp [alHas, h1]
    · rw [alGet_set_other hk]
      simp [hk]

theorem bumpOut_devIn (p : Packet) (ds : DeviceMap) (k : Str) :
    devIn k (bumpOut p ds) = devIn k ds := by
  unfold bumpOut
  rcases h1 : alGet p.sourceIp ds with _ | d <;> simp only [h1]
  unfold devIn
  by_cases hk : k = p.sourceIp
  · subst hk
    rw [alGet_set_self, h1]
  · rw [alGet_set_other hk]

theorem bumpOut_has (p : Packet) (ds : DeviceMap) (k : Str) :
    alHas k (bumpOut p ds) = alHas k ds := by
  unfold bumpOut
  rcases h1 : alGet p.sourceIp ds with _ | d <;> simp only [h1]
  rw [alHas_set]
  by_cases hk : k = p.sourceIp
  · subst hk
    simp [alHas, h1]
  · simp [hk]

theorem bumpOut_typeOf (p : Packet) (ds : DeviceMap) (k : Str) :
    typeOf k (bumpOut p ds) = typeOf k ds := by
  unfold bumpOut
  rcases h1 : alGet p.sourceIp ds with _ | d <;> simp only [h1]
  unfold typeOf
  by_cases hk : k = p.sourceIp
  · subst hk
    rw [alGet_set_self, h1]
    rfl
  · rw [alGet_set_other hk]

theorem bumpOut_macOf (p : Packet) (ds : DeviceMap) (k : Str) :
    macOf k (bumpOut p ds) = macOf k ds := by
  unfold bumpOut
  rcases h1 : alGet p.sourceIp ds with _ | d <;> simp only [h1]
  unfold macOf
  by_cases hk : k = p.sourceIp
  · subst hk
    rw [alGet_set_self, h1]
    rfl
  · rw [alGet_set_other hk]

theorem bumpIn_devIn (p : Packet) (ds : DeviceMap) (k : Str) :
    devIn k (bumpIn p ds) = devIn k ds + (if k = p.destIp ∧ alHas k ds then p.size else 0) := by
  unfold bumpIn
  rcases h1 : alGet p.destIp ds with _ | d <;> simp only [h1]
  · by_cases hk : k = p.destIp
    · subst hk
      simp [alHas, h1]
    · simp [hk]
  · unfold devIn
    by_cases hk : k = p.destIp
    · subst hk
      rw [alGet_set_self, h1]
      simp [alHas, h1]
    · rw [alGet_set_other hk]
      simp [hk]

theorem bumpIn_devOut (p : Packet) (ds : DeviceMap) (k : Str) :
    devOut k (bumpIn p ds) = devOut k ds := by
  unfold bumpIn
  rcases h1 : alGet p.destIp ds with _ | d <;> simp only [h1]
  unfold devOut
  by_cases hk : k = p.destIp
  · subst hk
    rw [alGet_set_self, h1]
  · rw [alGet_set_other hk]

theorem bumpIn_has (p : Packet) (ds : DeviceMap) (k : Str) :
    alHas k (bumpIn p ds) = alHas k ds := by
  unfold bumpIn
  rcases h1 : alGet p.destIp ds with _ | d <;> simp only [h1]
  rw [alHas_set]
  by_cases hk : k = p.destIp
  · subst hk
    simp [alHas, h1]
  · simp [hk]

theorem bumpIn_typeOf (p : Packet) (ds : DeviceMap) (k : Str) :
    typeOf k (bumpIn p ds) = typeOf k ds := by
  unfold bumpIn
  rcases h1 : alGet p.destIp ds with _ | d <;> simp only [h1]
  unfold typeOf
  by_cases hk : k = p.destIp
  · subst hk
    rw [alGet_set_self, h1]
    rfl
  · rw [alGet_set_other hk]

theorem bumpIn_macOf (p : Packet) (ds : DeviceMap) (k : Str) :
    macOf k (bumpIn p ds) = macOf k ds := by
  unfold bumpIn
  rcases h1 : alGet p.destIp ds with _ | d <;> simp only [h1]
  unfold macOf
  by_cases hk : k = p.destIp
  · subst hk
    rw [alGet_set_self, h1]
    rfl
  · rw [alGet_set_other hk]

theorem uc_devHas (p : Packet) (st : AnalysisState) (k : Str) :
    alHas k (updateConnection p st).devices = alHas k st.devices := by
  show alHas k (bumpIn p (bumpOut p st.devices)) = alHas k st.devices
  rw [bumpIn_has, bumpOut_has]

theorem uc_devOut (p : Packet) (st : AnalysisState) (k : Str) :
    devOut k (updateConnection p st).devices =
      devOut k st.devices + (if k = p.sourceIp ∧ alHas k st.devices then p.size else 0) := by
  show devOut k (bumpIn p (bumpOut p st.devices)) = _
  rw [bumpIn_devOut, bumpOut_devOut]

theorem uc_devIn (p : Packet) (st : AnalysisState) (k : Str) :
    devIn k (updateConnection p st).devices =
      devIn k st.devices + (if k = p.destIp ∧ alHas k st.devices then p.size else 0) := by
  show devIn k (bumpIn p (bumpOut p st.devices)) = _
  rw [bumpIn_devIn, bumpOut_devIn, bumpOut_has]

/-! ### `updateDevice` projections -/

theorem ud_has (tp : TrigPush) (rnd : Str → ℚ × ℚ) (p : Packet) (ds : DeviceMap) (k : Str) :
    alHas k (updateDevice tp rnd p ds) =
      (alHas k ds || (!isSpecialAddress p.sourceIp && k == p.sourceIp) ||
        (!isSpecialAddress p.destIp && k == p.destIp)) := by
  unfold updateDevice
  by_cases hs : isSpecialAddress p.sourceIp = true
  · by_cases hd : isSpecialAddress p.destIp = true
    · simp [hs, hd]
    · simp [hs, hd, ensure_has]
  · simp only [Bool.not_eq_true] at hs
    by_cases hd : isSpecialAddress p.destIp = true
    · simp [hs, hd, ensure_has]
    · simp only [Bool.not_eq_true] at hd
      simp [hs, hd, ensure_has, Bool.or_assoc]

theorem ud_has_src (tp : TrigPush) (rnd : Str → ℚ × ℚ) (p : Packet) (ds : DeviceMap) :
    alHas p.sourceIp (updateDevice tp rnd p ds) =
      (alHas p.sourceIp ds || !isSpecialAddress p.sourceIp) := by
  rw [ud_has]
  by_cases hs : isSpecialAddress p.sourceIp = true
  · have h3 : (!isSpecialAddress p.destIp && p.sourceIp == p.destIp) = false := by
      by_cases hsd : p.sourceIp = p.destIp
      · rw [← hsd, hs]
        rfl
      · simp [hsd]
    simp [hs, h3]
  · simp only [Bool.not_eq_true] at hs
    simp [hs]

theorem ud_has_dst (tp : TrigPush) (rnd : Str → ℚ × ℚ) (p : Packet) (ds : DeviceMap) :
    alHas p.destIp (updateDevice tp rnd p ds) =
      (alHas p.destIp ds || !isSpecialAddress p.destIp) := by
  rw [ud_has]
  by_cases hd : isSpecialAddress p.destIp = true
  · have h2 : (!isSpecialAddress p.sourceIp && p.destIp == p.sourceIp) = false := by
      by_cases hsd : p.destIp = p.sourceIp
      · rw [← hsd, hd]
        rfl
      · simp [hsd]
    simp [hd, h2]
  · simp only [Bool.not_eq_true] at hd
    simp [hd]

theorem ud_devIn (tp : TrigPush) (rnd : Str → ℚ × ℚ) (p : Packet) (ds : DeviceMap) (k : Str) :
    devIn k (updateDevice tp rnd p ds) = devIn k ds := by
  unfold updateDevice
  by_cases hs : isSpecialAddress p.sourceIp = true <;>
    by_cases hd : isSpecialAddress p.destIp = true <;>
    simp [hs, hd, ensure_devIn]

theorem ud_devOut (tp : TrigPush) (rnd : Str → ℚ × ℚ) (p : Packet) (ds : DeviceMap) (k : Str) :
    devOut k (updateDevice tp rnd p ds) = devOut k ds := by
  unfold updateDevice
  by_cases hs : isSpecialAddress p.sourceIp = true <;>
    by_cases hd : isSpecialAddress p.destIp = true <;>
    simp [hs, hd, ensure_devOut]

/-! ### `analyzePacket` projections -/

theorem a_connTraffic (tp : TrigPush) (rnd : Str → ℚ × ℚ) (p : Packet) (st : AnalysisState)
    (k : Str) : connTraffic k (analyzePacket tp rnd p st) =
      connTraffic k st + (if k = getConnectionId p then p.size else 0) := by
  unfold analyzePacket
  rw [uc_connTraffic]
  rfl

theorem a_connPackets (tp : TrigPush) (rnd : Str → ℚ × ℚ) (p : Packet) (st : AnalysisState)
    (k : Str) : connPackets k (analyzePacket tp rnd p st) =
      connPackets k st + (if k = getConnectionId p then 1 else 0) := by
  unfold analyzePacket
  rw [uc_connPackets]
  rfl

theorem a_connSeen (tp : TrigPush) (rnd : Str → ℚ × ℚ) (p : Packet) (st : AnalysisState)
    (k : Str) : connSeen k (analyzePacket tp rnd p st) =
      if k = getConnectionId p then some p.timestamp else connSeen k st := by
  unfold analyzePacket
  rw [uc_connSeen]
  rfl

theorem a_connHas (tp : TrigPush) (rnd : Str → ℚ × ℚ) (p : Packet) (st : AnalysisState)
    (k : Str) : alHas k (analyzePacket tp rnd p st).connections =
      (alHas k st.connections || k == getConnectionId p) := by
  unfold analyzePacket
  rw [uc_connHas]

theorem a_devHas (tp : TrigPush) (rnd : Str → ℚ × ℚ) (p : Packet) (st : AnalysisState)
    (k : Str) : alHas k (analyzePacket tp rnd p st).devices =
      (alHas k st.devices || (!isSpecialAddress p.sourceIp && k == p.sourceIp) ||
        (!isSpecialAddress p.destIp && k == p.destIp)) := by
  unfold analyzePacket
  rw [uc_devHas]
  exact ud_has tp rnd p st.devices k

theorem a_devOut (tp : TrigPush) (rnd : Str → ℚ × ℚ) (p : Packet) (st : AnalysisState)
    (k : Str) : devOut k (analyzePacket tp rnd p st).devices =
      devOut k st.devices +
        (if k = p.sourceIp ∧ (alHas k st.devices ∨ isSpecialAddress k = false) then p.size
         else 0) := by
  unfold analyzePacket
  rw [uc_devOut]
  dsimp only
  rw [ud_devOut]
  congr 1
  by_cases hk : k = p.sourceIp
  · rw [hk, ud_has_src]
    by_cases h1 : alHas p.sourceIp st.devices = true
    · simp [h1]
    · simp only [Bool.not_eq_true] at h1
      by_cases h2 : isSpecialAddress p.sourceIp = true
      · simp [h1, h2]
      · simp only [Bool.not_eq_true] at h2
        simp [h1, h2]
  · simp [hk]

theorem a_devIn (tp : TrigPush) (rnd : Str → ℚ × ℚ) (p : Packet) (st : AnalysisState)
    (k : Str) : devIn k (analyzePacket tp rnd p st).devices =
      devIn k st.devices +
        (if k = p.destIp ∧ (alHas k st.devices ∨ isSpecialAddress k = false) then p.size
         else 0) := by
  unfold analyzePacket
  rw [uc_devIn]
  dsimp only
  rw [ud_devIn]
  congr 1
  by_cases hk : k = p.destIp
  · rw [hk, ud_has_dst]
    by_cases h1 : alHas p.destIp st.devices = true
    · simp [h1]
    · simp only [Bool.not_eq_true] at h1
      by_cases h2 : isSpecialAddress p.destIp = true
      · simp [h1, h2]
      · simp only [Bool.not_eq_true] at h2
        simp [h1, h2]
  · simp [hk]

/-- A special key is never created: its membership is unchanged by ingest. -/
theorem a_devHas_special (tp : TrigPush) (rnd : Str → ℚ × ℚ) (p : Packet) (st : AnalysisState)
    (k : Str) (hs : isSpecialAddress k = true) :
    alHas k (analyzePacket tp rnd p st).devices = alHas k st.devices := by
  rw [a_devHas]
  have h2 : (!isSpecialAddress p.sourceIp && k == p.sourceIp) = false := by
    by_cases hksrc : k = p.sourceIp
    · rw [← hksrc, hs]
      rfl
    · simp [hksrc]
  have h3 : (!isSpecialAddress p.destIp && k == p.destIp) = false := by
    by_cases hkdst : k = p.destIp
    · rw [← hkdst, hs]
      rfl
    · simp [hkdst]
  rw [h2, h3]
  simp

/-! ## Concrete instances used by counterexamples and witnesses -/

/-- A degenerate displacement oracle (separating force 0). -/
def tpZero : TrigPush := fun _ _ _ => (0, 0)

/-- A position oracle spreading devices far apart by their first character,
so creation-time collision resolution terminates immediately. -/
def rndSpread : Str → ℚ × ℚ :=
  fun ip =>
    match ip with
    | c :: _ => ((c.toNat : ℚ), 0)
    | [] => (0, 0)

def c3p1 : Packet :=
  { timestamp := 100, sourceIp := str "1.2.3.4", destIp := str "5.6.7.8",
    sourcePort := 1, destPort := 2, protocol := .TCP, size := 10, info := none }

def c3p2 : Packet := { c3p1 with timestamp := 50 }

/-! ## Claim C4 -/

/-- C4 counterexample: the spec says every line whose source address is
`0.0.0.0` is rejected, including the port-less ICMP shape; but the code only
checks for the substring `0.0.0.0.` (address followed by a dot), so the
port-less ICMP line below parses to a packet with source `0.0.0.0`. -/
theorem C4_counterexample :
    (parseTcpdumpLine 0 (str "IP 0.0.0.0 > 192.168.1.2: ICMP echo request, id 1, seq 0, length 64")).map
        Packet.sourceIp = some (str "0.0.0.0") ∧
    (parseTcpdumpLine 0 (str "IP 0.0.0.0 > 192.168.1.2: ICMP echo request, id 1, seq 0, length 64")).isSome
        = true := by
  constructor
  · decide
  · decide

/-- C4 (amended): the classifier returns `null` for every empty or
whitespace-only line, and for every line containing the substring
`0.0.0.0.` (a `0.0.0.0` address immediately followed by a dot, i.e. the
ported form; this covers both `includes` checks of the source, since a match
of `" > 0.0.0.0."` contains `"0.0.0.0."`).  Port-less `0.0.0.0` addresses,
as in the ICMP shape, are not rejected. -/
theorem C4_reject (now : Nat) (line : Str)
    (h : line.all isWS = true ∨ containsStr (str "0.0.0.0.") line = true) :
    parseTcpdumpLine now line = none := by
  unfold parseTcpdumpLine
  rcases h with h | h
  · simp [h]
  · by_cases hw : line.all isWS = true
    · simp [hw]
    · simp [hw, h]

/-- Witness for `C4_reject` at the whitespace-only line and at the repo's
own `0.0.0.0.68` test line. -/
theorem C4_reject_witness :
    parseTcpdumpLine 0 (str "   ") = none ∧
    parseTcpdumpLine 0 (str "IP 0.0.0.0.68 > 255.255.255.255.67: UDP, length 512") = none :=
  ⟨C4_reject 0 (str "   ") (Or.inl (by decide)),
   C4_reject 0 (str "IP 0.0.0.0.68 > 255.255.255.255.67: UDP, length 512")
     (Or.inr (by decide))⟩

/-! ## Claim C3 -/

theorem a_aliveCond (tp : TrigPush) (rnd : Str → ℚ × ℚ) (p : Packet) (st : AnalysisState)
    (k : Str) :
    (alHas k (analyzePacket tp rnd p st).devices = true ∨ isSpecialAddress k = false) ↔
      (alHas k st.devices = true ∨ isSpecialAddress k = false) := by
  by_cases hs : isSpecialAddress k = true
  · rw [a_devHas_special tp rnd p st k hs]
  · simp only [Bool.not_eq_true] at hs
    simp [hs]

/-- C3 counterexample: ingest is not commutative and last-seen is not a
maximum.  Two packets on the same 5-tuple with timestamps 100 and 50: order
`p1; p2` leaves the connection's `lastSeen` at 50 (the later ingest's
timestamp, not the max 100), order `p2; p1` leaves it at 100, and the two
final states differ. -/
theorem C3_counterexample :
    connSeen (getConnectionId c3p1)
        (analyzePacket tpZero rndSpread c3p2 (analyzePacket tpZero rndSpread c3p1 emptyAnalysis))
      = some 50 ∧
    connSeen (getConnectionId c3p1)
        (analyzePacket tpZero rndSpread c3p1 (analyzePacket tpZero rndSpread c3p2 emptyAnalysis))
      = some 100 ∧
    (analyzePacket tpZero rndSpread c3p2 (analyzePacket tpZero rndSpread c3p1 emptyAnalysis)).connections ≠
      (analyzePacket tpZero rndSpread c3p1 (analyzePacket tpZero rndSpread c3p2 emptyAnalysis)).connections := by
  refine ⟨by decide, by decide, by decide⟩

/-- C3 (amended): ingest is commutative per key on everything except the
last-seen stamps — for any two packets and any prior state, both ingest
orders agree on every connection's traffic and packet counters, every
device's directional counters, and on the device and connection key sets
(so replays only inflate counters and never corrupt keys); but the stored
connection last-seen is the timestamp of the most recently ingested packet
writing the key (last write wins), not the maximum, so the full states can
differ when timestamps differ. -/
theorem C3_ingest_commutes (tp : TrigPush) (rnd : Str → ℚ × ℚ) (p1 p2 : Packet)
    (st : AnalysisState) (k : Str) :
    connTraffic k (analyzePacket tp rnd p2 (analyzePacket tp rnd p1 st)) =
      connTraffic k (analyzePacket tp rnd p1 (analyzePacket tp rnd p2 st)) ∧
    connPackets k (analyzePacket tp rnd p2 (analyzePacket tp rnd p1 st)) =
      connPackets k (analyzePacket tp rnd p1 (analyzePacket tp rnd p2 st)) ∧
    devOut k (analyzePacket tp rnd p2 (analyzePacket tp rnd p1 st)).devices =
      devOut k (analyzePacket tp rnd p1 (analyzePacket tp rnd p2 st)).devices ∧
    devIn k (analyzePacket tp rnd p2 (analyzePacket tp rnd p1 st)).devices =
      devIn k (analyzePacket tp rnd p1 (analyzePacket tp rnd p2 st)).devices ∧
    alHas k (analyzePacket tp rnd p2 (analyzePacket tp rnd p1 st)).devices =
      alHas k (analyzePacket tp rnd p1 (analyzePacket tp rnd p2 st)).devices ∧
    alHas k (analyzePacket tp rnd p2 (analyzePacket tp rnd p1 st)).connections =
      alHas k (analyzePacket tp rnd p1 (analyzePacket tp rnd p2 st)).connections ∧
    connSeen k (analyzePacket tp rnd p1 st) =
      (if k = getConnectionId p1 then some p1.timestamp else connSeen k st) := by
  refine ⟨?_, ?_, ?_, ?_, ?_, ?_, a_connSeen tp rnd p1 st k⟩
  · rw [a_connTraffic, a_connTraffic, a_connTraffic, a_connTraffic]
    omega
  · rw [a_connPackets, a_connPackets, a_connPackets, a_connPackets]
    omega
  · rw [a_devOut, a_devOut, a_devOut, a_devOut]
    have e2 : (if k = p2.sourceIp ∧ (alHas k (analyzePacket tp rnd p1 st).devices ∨
        isSpecialAddress k = false) then p2.size else 0) =
        (if k = p2.sourceIp ∧ (alHas k st.devices ∨ isSpecialAddress k = false) then p2.size
         else 0) :=
      if_congr (and_congr_right fun _ => a_aliveCond tp rnd p1 st k) rfl rfl
    have e1 : (if k = p1.sourceIp ∧ (alHas k (analyzePacket tp rnd p2 st).devices ∨
        isSpecialAddress k = false) then p1.size else 0) =
        (if k = p1.sourceIp ∧ (alHas k st.devices ∨ isSpecialAddress k = false) then p1.size
         else 0) :=
      if_congr (and_congr_right fun _ => a_aliveCond tp rnd p2 st k) rfl rfl
    rw [e1, e2]
    omega
  · rw [a_devIn, a_devIn, a_devIn, a_devIn]
    have e2 : (if k = p2.destIp ∧ (alHas k (analyzePacket tp rnd p1 st).devices ∨
        isSpecialAddress k = false) then p2.size else 0) =
        (if k = p2.destIp ∧ (alHas k st.devices ∨ isSpecialAddress k = false) then p2.size
         else 0) :=
      if_congr (and_congr_right fun _ => a_aliveCond tp rnd p1 st k) rfl rfl
    have e1 : (if k = p1.destIp ∧ (alHas k (analyzePacket tp rnd p2 st).devices ∨
        isSpecialAddress k = false) then p1.size else 0) =
        (if k = p1.destIp ∧ (alHas k st.devices ∨ isSpecialAddress k = false) then p1.size
         else 0) :=
      if_congr (and_congr_right fun _ => a_aliveCond tp rnd p2 st k) rfl rfl
    rw [e1, e2]
    omega
  · rw [a_devHas, a_devHas, a_devHas, a_devHas]
    cases alHas k st.devices <;>
      cases (!isSpecialAddress p1.sourceIp && k == p1.sourceIp) <;>
      cases (!isSpecialAddress p1.destIp && k == p1.destIp) <;>
      cases (!isSpecialAddress p2.sourceIp && k == p2.sourceIp) <;>
      cases (!isSpecialAddress p2.destIp && k == p2.destIp) <;> rfl
  · rw [a_connHas, a_connHas, a_connHas, a_connHas]
    cases alHas k st.connections <;>
      cases (k == getConnectionId p1) <;> cases (k == getConnectionId p2) <;> rfl

/-! ## Claims C2 and C5: the classifier's protocol and size logic -/

/-- Inversion of a successful parse: the packet is `buildPacket` applied to
the leftmost ip/port match of the `ipLine`. -/
theorem parse_some_inv (now : Nat) (line : Str) (p : Packet)
    (h : parseTcpdumpLine now line = some p) :
    ∃ m, ipPortSearch (ipLineOf line) = some m ∧
      p = buildPacket now (infoOf line) (ipLineOf line) m := by
  unfold parseTcpdumpLine at h
  by_cases hw : line.all isWS = true
  · simp [hw] at h
  · simp only [hw, Bool.false_eq_true, if_false] at h
    by_cases hz : (containsStr (str "0.0.0.0.") line || containsStr (str " > 0.0.0.0.") line)
        = true
    · simp [hz] at h
    · simp only [hz, Bool.false_eq_true, if_false] at h
      rcases hm : ipPortSearch (ipLineOf line) with _ | m
      · rw [hm] at h
        simp at h
      · rw [hm] at h
        simp only [Option.some.injEq] at h
        exact ⟨m, rfl, h.symm⟩

theorem tcpRefine_ne_udp (L : Str) (sp : Nat) : (tcpRefine L sp == Protocol.UDP) = false := by
  unfold tcpRefine
  split <;> try rfl
  split <;> try rfl
  split <;> rfl

theorem classify_udp (L : Str) (sp dp : Nat) (h : containsStr strUDP L = true) :
    classifyLine L sp dp =
      { protocol := if sp = 53 ∨ dp = 53 then .DNS else .UDP, size := lengthSize L,
        sourcePort := sp, destPort := dp } := by
  unfold classifyLine
  simp only [h, if_true]
  by_cases h53 : sp = 53 ∨ dp = 53
  · have : (Protocol.UDP == Protocol.UDP && (sp == 53 || dp == 53)) = true := by
      rcases h53 with h53 | h53 <;> simp [h53]
    rw [this]
    simp [h53]
  · have : (Protocol.UDP == Protocol.UDP && (sp == 53 || dp == 53)) = false := by
      push_neg at h53
      simp [h53.1, h53.2]
    rw [this]
    simp [h53]

theorem classify_icmp (L : Str) (sp dp : Nat) (hu : containsStr strUDP L = false)
    (hi : containsStr strICMP L = true) :
    classifyLine L sp dp =
      { protocol := .ICMP, size := lengthSize L, sourcePort := 0, destPort := 0 } := by
  unfold classifyLine
  simp [hu, hi]

theorem classify_flags (L : Str) (sp dp : Nat) (hu : containsStr strUDP L = false)
    (hi : containsStr strICMP L = false) (hf : containsStr strFlags L = true) :
    classifyLine L sp dp =
      { protocol := tcpRefine L sp, size := lengthSize L, sourcePort := sp, destPort := dp } := by
  unfold classifyLine
  simp only [hu, hi, hf, Bool.false_eq_true, if_false, if_true]
  rw [tcpRefine_ne_udp L sp]
  simp

theorem classify_default (L : Str) (sp dp : Nat) (hu : containsStr strUDP L = false)
    (hi : containsStr strICMP L = false) (hf : containsStr strFlags L = false) :
    classifyLine L sp dp =
      { protocol := .TCP, size := 0, sourcePort := sp, destPort := dp } := by
  unfold classifyLine
  simp [hu, hi, hf]

/-- C2 counterexample: a TCP (`Flags`) line with source port 53 is left as
TCP by the code — the DNS rule only fires when the transport scan yielded
UDP, not "regardless of transport" as the claim states. -/
theorem C2_counterexample :
    (parseTcpdumpLine 0 (str "IP 1.2.3.4.53 > 5.6.7.8.80: Flags [S], length 10")).map
      (fun p => (p.sourcePort, p.protocol)) = some (53, Protocol.TCP) := by
  decide

/-- C2 (amended): for every accepted line, the port-53 DNS rule applies only
when the transport scan yielded UDP (an accepted UDP line with either port
53 classifies as DNS, any other accepted UDP line stays UDP); the HTTP /
HTTPS / SSH refinements apply only on lines with a TCP-flags token (source
port 80 with no seq/ack tokens → HTTP, source port 443 with no seq/ack
tokens → HTTPS, source port 22 → SSH), and such a flags line never
classifies as DNS. -/
theorem C2_refinement (now : Nat) (line : Str) (p : Packet)
    (h : parseTcpdumpLine now line = some p) :
    (containsStr strUDP (ipLineOf line) = true →
      ((p.sourcePort = 53 ∨ p.destPort = 53) → p.protocol = .DNS) ∧
      (¬(p.sourcePort = 53 ∨ p.destPort = 53) → p.protocol = .UDP)) ∧
    (containsStr strUDP (ipLineOf line) = false →
      containsStr strICMP (ipLineOf line) = false →
      containsStr strFlags (ipLineOf line) = true →
      (p.sourcePort = 80 → containsStr strseq (ipLineOf line) = false →
        containsStr strack (ipLineOf line) = false → p.protocol = .HTTP) ∧
      (p.sourcePort = 443 → containsStr strseq (ipLineOf line) = false →
        containsStr strack (ipLineOf line) = false → p.protocol = .HTTPS) ∧
      (p.sourcePort = 22 → p.protocol = .SSH) ∧
      p.protocol ≠ .DNS) := by
  obtain ⟨m, hm, hp⟩ := parse_some_inv now line p h
  subst hp
  unfold buildPacket
  dsimp only
  constructor
  · intro hu
    rw [classify_udp _ _ _ hu]
    dsimp only
    constructor
    · intro h53
      simp [h53]
    · intro h53
      simp [h53]
  · intro hu hi hf
    rw [classify_flags _ _ _ hu hi hf]
    dsimp only
    refine ⟨?_, ?_, ?_, ?_⟩
    · intro h80 hseq hack
      unfold tcpRefine
      simp [h80, hseq, hack]
    · intro h443 hseq hack
      unfold tcpRefine
      simp [h443, hseq, hack]
    · intro h22
      unfold tcpRefine
      simp [h22]
    · unfold tcpRefine
      split
      · exact fun hh => Protocol.noConfusion hh
      split
      · exact fun hh => Protocol.noConfusion hh
      split
      · exact fun hh => Protocol.noConfusion hh
      · exact fun hh => Protocol.noConfusion hh

def w2line : Str := str "IP 10.0.0.1.53 > 192.168.1.1.54321: UDP, length 1024"

def w2pkt : Packet :=
  { timestamp := 0, sourceIp := str "10.0.0.1", destIp := str "192.168.1.1",
    sourcePort := 53, destPort := 54321, protocol := .DNS, size := 1024, info := none }

/-- Witness for `C2_refinement` at the repo's own UDP DNS test line. -/
theorem C2_refinement_witness :
    (parseTcpdumpLine 0 w2line).map Packet.protocol = some Protocol.DNS := by
  have h : parseTcpdumpLine 0 w2line = some w2pkt := by decide
  rw [h]
  exact congrArg some (((C2_refinement 0 w2line w2pkt h).1 (by decide)).1 (Or.inl (by decide)))

/-- C5 counterexample: an accepted line carrying a `length 100` token but no
UDP / ICMP / TCP-flags marker falls into TCP by the default rule, and its
size is 0 — the `length` token is not extracted on the default path, contra
the claim. -/
theorem C5_counterexample :
    findLength (ipLineOf (str "IP 1.2.3.4.10 > 5.6.7.8.20: length 100")) = some 100 ∧
    (parseTcpdumpLine 0 (str "IP 1.2.3.4.10 > 5.6.7.8.20: length 100")).map Packet.size
      = some 0 := by
  refine ⟨by decide, by decide⟩

/-- C5 (amended): for every accepted line, the `length <N>` size is
extracted exactly on the marked paths — when the line has a UDP, ICMP, or
TCP-flags marker the packet size is the first `length <N>` token of the
`ipLine` (0 when absent); a line classified TCP by the default rule (no
marker at all) always gets size 0, even when a `length <N>` token is
present. -/
theorem C5_size (now : Nat) (line : Str) (p : Packet)
    (h : parseTcpdumpLine now line = some p) :
    ((containsStr strUDP (ipLineOf line) = true ∨ containsStr strICMP (ipLineOf line) = true ∨
        containsStr strFlags (ipLineOf line) = true) → p.size = lengthSize (ipLineOf line)) ∧
    (containsStr strUDP (ipLineOf line) = false → containsStr strICMP (ipLineOf line) = false →
      containsStr strFlags (ipLineOf line) = false → p.size = 0) := by
  obtain ⟨m, hm, hp⟩ := parse_some_inv now line p h
  subst hp
  unfold buildPacket
  dsimp only
  constructor
  · intro hmark
    by_cases hu : containsStr strUDP (ipLineOf line) = true
    · rw [classify_udp _ _ _ hu]
    · simp only [Bool.not_eq_true] at hu
      by_cases hi : containsStr strICMP (ipLineOf line) = true
      · rw [classify_icmp _ _ _ hu hi]
      · simp only [Bool.not_eq_true] at hi
        by_cases hf : containsStr strFlags (ipLineOf line) = true
        · rw [classify_flags _ _ _ hu hi hf]
        · simp only [Bool.not_eq_true] at hf
          rcases hmark with hh | hh | hh
          · rw [hh] at hu
            exact absurd hu (by simp)
          · rw [hh] at hi
            exact absurd hi (by simp)
          · rw [hh] at hf
            exact absurd hf (by simp)
  · intro hu hi hf
    rw [classify_default _ _ _ hu hi hf]

def w5line : Str := str "IP 192.168.1.1.12345 > 192.168.1.2.54321: UDP, length 512"

def w5pkt : Packet :=
  { timestamp := 0, sourceIp := str "192.168.1.1", destIp := str "192.168.1.2",
    sourcePort := 12345, destPort := 54321, protocol := .UDP, size := 512, info := none }

/-- Witness for `C5_size` at the repo's own UDP test line. -/
theorem C5_size_witness :
    (parseTcpdumpLine 0 w5line).map Packet.size = some 512 := by
  have h : parseTcpdumpLine 0 w5line = some w5pkt := by decide
  have h2 := (C5_size 0 w5line w5pkt h).1 (Or.inl (by decide))
  rw [h]
  exact congrArg some (h2.trans (by decide))

/-! ## Claims C6 and C9: device type and MAC stability -/

theorem typeOf_eq_core (k : Str) (ds : DeviceMap) :
    typeOf k ds = ((alGet k ds).map devCore).map (fun d => d.type) := by
  unfold typeOf
  rcases alGet k ds <;> rfl

theorem macOf_eq_core (k : Str) (ds : DeviceMap) :
    macOf k ds = ((alGet k ds).map devCore).map (fun d => d.mac) := by
  unfold macOf
  rcases alGet k ds <;> rfl

/-- `ensureDeviceExists` keeps the type of every already-present key. -/
theorem ensure_typeOf_present (tp : TrigPush) (rnd : Str → ℚ × ℚ) (ip mac k : Str)
    (ds : DeviceMap) (h : alHas k ds = true) :
    typeOf k (ensureDeviceExists tp rnd ip mac ds) = typeOf k ds := by
  rw [typeOf_eq_core, ensure_get_core]
  rcases hip : alGet ip ds with _ | device <;> dsimp only
  · by_cases hk : k = ip
    · subst hk
      unfold alHas at h
      rw [hip] at h
      simp at h
    · rw [if_neg hk, typeOf_eq_core, Option.map_map]
  · by_cases hc : k = ip ∧ mac ≠ [] ∧ device.mac = []
    · rw [if_pos hc, hc.1]
      unfold typeOf
      rw [hip]
      rfl
    · rw [if_neg hc, typeOf_eq_core, Option.map_map]

theorem ud_typeOf_present (tp : TrigPush) (rnd : Str → ℚ × ℚ) (p : Packet) (k : Str)
    (ds : DeviceMap) (h : alHas k ds = true) :
    typeOf k (updateDevice tp rnd p ds) = typeOf k ds := by
  unfold updateDevice
  by_cases hs : isSpecialAddress p.sourceIp = true
  · by_cases hd : isSpecialAddress p.destIp = true
    · simp [hs, hd]
    · simp only [Bool.not_eq_true] at hd
      simp only [hs, hd, Bool.not_true, Bool.not_false, Bool.false_eq_true, if_false, if_true]
      exact ensure_typeOf_present _ _ _ _ _ _ h
  · simp only [Bool.not_eq_true] at hs
    by_cases hd : isSpecialAddress p.destIp = true
    · simp only [hs, hd, Bool.not_true, Bool.not_false, Bool.false_eq_true, if_false, if_true]
      exact ensure_typeOf_present _ _ _ _ _ _ h
    · simp only [Bool.not_eq_true] at hd
      simp only [hs, hd, Bool.not_true, Bool.not_false, if_true]
      rw [ensure_typeOf_present _ _ _ _ _ _ (by rw [ensure_has, h]; rfl)]
      exact ensure_typeOf_present _ _ _ _ _ _ h

/-- The device type of every present key survives a whole ingest. -/
theorem a_typeOf_present (tp : TrigPush) (rnd : Str → ℚ × ℚ) (p : Packet) (st : AnalysisState)
    (k : Str) (h : alHas k st.devices = true) :
    typeOf k (analyzePacket tp rnd p st).devices = typeOf k st.devices := by
  unfold analyzePacket updateConnection
  dsimp only
  rw [bumpIn_typeOf, bumpOut_typeOf]
  exact ud_typeOf_present tp rnd p k st.devices h

/-- `ensureDeviceExists` never clears or overwrites a nonempty MAC. -/
theorem ensure_macOf_nonempty (tp : TrigPush) (rnd : Str → ℚ × ℚ) (ip mac k : Str)
    (ds : DeviceMap) (d : NetworkDevice) (h : alGet k ds = some d) (hm : d.mac ≠ []) :
    macOf k (ensureDeviceExists tp rnd ip mac ds) = some d.mac := by
  rw [macOf_eq_core, ensure_get_core]
  rcases hip : alGet ip ds with _ | device <;> dsimp only
  · by_cases hk : k = ip
    · subst hk
      rw [hip] at h
      exact absurd h (by simp)
    · simp [hk, h, devCore]
  · by_cases hc : k = ip ∧ mac ≠ [] ∧ device.mac = []
    · exfalso
      rw [hc.1, hip] at h
      injection h with h
      rw [← h] at hm
      exact hm hc.2.2
    · simp [hc, h, devCore]

theorem ud_macOf_nonempty (tp : TrigPush) (rnd : Str → ℚ × ℚ) (p : Packet) (k : Str)
    (ds : DeviceMap) (d : NetworkDevice) (h : alGet k ds = some d) (hm : d.mac ≠ []) :
    macOf k (updateDevice tp rnd p ds) = some d.mac := by
  unfold updateDevice
  by_cases hs : isSpecialAddress p.sourceIp = true
  · by_cases hd : isSpecialAddress p.destIp = true
    · simp only [hs, hd, Bool.not_true, Bool.false_eq_true, if_false]
      unfold macOf
      rw [h]
      rfl
    · simp only [Bool.not_eq_true] at hd
      simp only [hs, hd, Bool.not_true, Bool.not_false, Bool.false_eq_true, if_false, if_true]
      exact ensure_macOf_nonempty tp rnd p.destIp (destMacOf p.info) k ds d h hm
  · simp only [Bool.not_eq_true] at hs
    by_cases hd : isSpecialAddress p.destIp = true
    · simp only [hs, hd, Bool.not_true, Bool.not_false, Bool.false_eq_true, if_false, if_true]
      exact ensure_macOf_nonempty tp rnd p.sourceIp (sourceMacOf p.info) k ds d h hm
    · simp only [Bool.not_eq_true] at hd
      simp only [hs, hd, Bool.not_false, if_true]
      have h1 := ensure_macOf_nonempty tp rnd p.sourceIp (sourceMacOf p.info) k ds d h hm
      unfold macOf at h1
      rcases hg : alGet k (ensureDeviceExists tp rnd p.sourceIp (sourceMacOf p.info) ds)
          with _ | d1
      · rw [hg] at h1
        exact absurd h1 (by simp)
      · rw [hg] at h1
        simp at h1
        have hm1 : d1.mac ≠ [] := by
          rw [h1]
          exact hm
        rw [ensure_macOf_nonempty tp rnd p.destIp (destMacOf p.info) k _ d1 hg hm1, h1]

/-- Which MACs `ensureDeviceExists` can leave on a present key. -/
theorem ensure_mac_char (tp : TrigPush) (rnd : Str → ℚ × ℚ) (ip mac k : Str)
    (ds : DeviceMap) (d : NetworkDevice) (h : alGet k ds = some d) :
    ∃ d', alGet k (ensureDeviceExists tp rnd ip mac ds) = some d' ∧
      (d'.mac = d.mac ∨ (d.mac = [] ∧ mac ≠ [] ∧ d'.mac = mac)) := by
  have hcore := ensure_get_core tp rnd ip mac k ds
  rcases hip : alGet ip ds with _ | device <;> rw [hip] at hcore <;> dsimp only at hcore
  · by_cases hk : k = ip
    · subst hk
      rw [hip] at h
      exact absurd h (by simp)
    · rw [if_neg hk, h] at hcore
      rcases Option.map_eq_some'.1 hcore with ⟨d', hd', hc⟩
      refine ⟨d', hd', Or.inl ?_⟩
      have := congrArg (fun x => x.mac) hc
      simpa [devCore] using this
  · by_cases hc : k = ip ∧ mac ≠ [] ∧ device.mac = []
    · rw [if_pos hc] at hcore
      rcases Option.map_eq_some'.1 hcore with ⟨d', hd', hcc⟩
      refine ⟨d', hd', Or.inr ⟨?_, hc.2.1, ?_⟩⟩
      · rw [hc.1, hip] at h
        injection h with h
        rw [← h]
        exact hc.2.2
      · have := congrArg (fun x => x.mac) hcc
        simpa [devCore] using this
    · rw [if_neg hc, h] at hcore
      rcases Option.map_eq_some'.1 hcore with ⟨d', hd', hcc⟩
      refine ⟨d', hd', Or.inl ?_⟩
      have := congrArg (fun x => x.mac) hcc
      simpa [devCore] using this

/-- Which MACs a whole `updateDevice` can leave on a present key: either the
old MAC, or — only when the old MAC was empty — a nonempty MAC taken from
the packet's link-layer annotation. -/
theorem ud_mac_char (tp : TrigPush) (rnd : Str → ℚ × ℚ) (p : Packet) (k : Str)
    (ds : DeviceMap) (d : NetworkDevice) (h : alGet k ds = some d) :
    ∃ d', alGet k (updateDevice tp rnd p ds) = some d' ∧
      (d'.mac = d.mac ∨ (d.mac = [] ∧ d'.mac ≠ [] ∧
        (d'.mac = sourceMacOf p.info ∨ d'.mac = destMacOf p.info))) := by
  unfold updateDevice
  by_cases hs : isSpecialAddress p.sourceIp = true
  · by_cases hd : isSpecialAddress p.destIp = true
    · simp only [hs, hd, Bool.not_true, Bool.false_eq_true, if_false]
      exact ⟨d, h, Or.inl rfl⟩
    · simp only [Bool.not_eq_true] at hd
      simp only [hs, hd, Bool.not_true, Bool.not_false, Bool.false_eq_true, if_false, if_true]
      obtain ⟨d1, hd1, hc1⟩ := ensure_mac_char tp rnd p.destIp (destMacOf p.info) k ds d h
      refine ⟨d1, hd1, ?_⟩
      rcases hc1 with hc1 | hc1
      · exact Or.inl hc1
      · exact Or.inr ⟨hc1.1, hc1.2.2 ▸ hc1.2.1, Or.inr hc1.2.2⟩
  · simp only [Bool.not_eq_true] at hs
    by_cases hd : isSpecialAddress p.destIp = true
    · simp only [hs, hd, Bool.not_true, Bool.not_false, Bool.false_eq_true, if_false, if_true]
      obtain ⟨d1, hd1, hc1⟩ := ensure_mac_char tp rnd p.sourceIp (sourceMacOf p.info) k ds d h
      refine ⟨d1, hd1, ?_⟩
      rcases hc1 with hc1 | hc1
      · exact Or.inl hc1
      · exact Or.inr ⟨hc1.1, hc1.2.2 ▸ hc1.2.1, Or.inl hc1.2.2⟩
    · simp only [Bool.not_eq_true] at hd
      simp only [hs, hd, Bool.not_false, if_true]
      obtain ⟨d1, hd1, hc1⟩ := ensure_mac_char tp rnd p.sourceIp (sourceMacOf p.info) k ds d h
      obtain ⟨d2, hd2, hc2⟩ := ensure_mac_char tp rnd p.destIp (destMacOf p.info) k _ d1 hd1
      refine ⟨d2, hd2, ?_⟩
      rcases hc1 with hc1 | hc1
      · rcases hc2 with hc2 | hc2
        · exact Or.inl (hc2.trans hc1)
        · exact Or.inr ⟨hc1 ▸ hc2.1, hc2.2.2 ▸ hc2.2.1, Or.inr hc2.2.2⟩
      · rcases hc2 with hc2 | hc2
        · exact Or.inr ⟨hc1.1, hc2 ▸ hc1.2.2 ▸ hc1.2.1, Or.inl (hc2.trans hc1.2.2)⟩
        · exfalso
          exact hc1.2.1 (hc1.2.2 ▸ hc2.1)

/-- Transport a lookup backwards through a `bump`: the earlier record has
the same MAC. -/
theorem bump_mac_back {ds1 ds2 : DeviceMap} (hpres : ∀ k, macOf k ds2 = macOf k ds1)
    (k : Str) (d' : NetworkDevice) (h : alGet k ds2 = some d') :
    ∃ d'', alGet k ds1 = some d'' ∧ d''.mac = d'.mac := by
  have h2 : macOf k ds1 = some d'.mac := by
    rw [← hpres k]
    unfold macOf
    rw [h]
    rfl
  rcases Option.map_eq_some'.1 h2 with ⟨d'', hd'', hm⟩
  exact ⟨d'', hd'', hm⟩

/-- The claim's private-range gateway rule, stated with the true RFC1918
`172.16.0.0/12` block (second octet 16–31); written from the claim's words
for comparison with `detectDeviceType`. -/
def in172_16_12 (ip : Str) : Bool :=
  (List.range 16).any (fun i => strStarts (str "172." ++ natDigits (16 + i) ++ str ".") ip)

/-- The claim's gateway condition: ends in `.1` and lies within
192.168.0.0/16, 10.0.0.0/8, or 172.16.0.0/12; written from the claim's
words for comparison with `detectDeviceType`. -/
def claimGatewayRule (ip : Str) : Bool :=
  strEnds (str ".1") ip &&
    (strStarts (str "192.168.") ip || strStarts (str "10.") ip || in172_16_12 ip)

def c6pkt : Packet :=
  { timestamp := 10, sourceIp := str "172.5.0.1", destIp := str "224.0.0.1",
    sourcePort := 1, destPort := 2, protocol := .TCP, size := 4, info := none }

/-- C6 counterexample: `172.5.0.1` ends in `.1` but lies outside every
private range of the claim (its 172.16.0.0/12 block excludes 172.5.x.x),
so the claim says `host`; yet the code's `startsWith('172.')` check covers
all of 172.0.0.0/8, and the materialized device is typed `GATEWAY`. -/
theorem C6_counterexample :
    detectDeviceType (str "172.5.0.1") = DeviceType.GATEWAY ∧
    claimGatewayRule (str "172.5.0.1") = false ∧
    isSpecialAddress (str "172.5.0.1") = false ∧
    typeOf (str "172.5.0.1") (analyzePacket tpZero rndSpread c6pkt emptyAnalysis).devices =
      some DeviceType.GATEWAY := by
  refine ⟨by decide, by decide, by decide, by decide⟩

/-- C6 (amended): for every non-special IP, the type assigned at device
creation is `detectDeviceType`, which is GATEWAY exactly when the address
ends in `.1` and starts with `192.168.`, `10.`, or `172.` — i.e. the third
"private" test is the whole 172.0.0.0/8 prefix, not 172.16.0.0/12 — and
HOST for every other non-special address; and the type of a present key
never changes across an ingest. -/
theorem C6_device_type (tp : TrigPush) (rnd : Str → ℚ × ℚ) (p : Packet) (st : AnalysisState)
    (ip mac k : Str) (hns : isSpecialAddress ip = false) (hk : alHas k st.devices = true) :
    (detectDeviceType ip = DeviceType.GATEWAY ↔
      (strEnds (str ".1") ip = true ∧ (strStarts (str "192.168.") ip = true ∨
        strStarts (str "10.") ip = true ∨ strStarts (str "172.") ip = true))) ∧
    (detectDeviceType ip = DeviceType.GATEWAY ∨ detectDeviceType ip = DeviceType.HOST) ∧
    (mkDevice rnd ip mac).type = detectDeviceType ip ∧
    typeOf k (analyzePacket tp rnd p st).devices = typeOf k st.devices := by
  have h127 : strStarts (str "127.") ip = false := by
    cases hb : strStarts (str "127.") ip with
    | false => rfl
    | true =>
      unfold isSpecialAddress at hns
      rw [hb] at hns
      simp at hns
  have h00 : (ip == str "0.0.0.0") = false := by
    cases hb : (ip == str "0.0.0.0") with
    | false => rfl
    | true =>
      unfold isSpecialAddress at hns
      rw [hb] at hns
      simp at hns
  have hns' : (strStarts (str "127.") ip || ip == str "0.0.0.0") = false := by
    simp [h127, h00]
  refine ⟨?_, ?_, rfl, a_typeOf_present tp rnd p st k hk⟩
  · unfold detectDeviceType
    rw [hns']
    simp only [Bool.false_eq_true, if_false]
    by_cases hcond : (strEnds (str ".1") ip &&
        (strStarts (str "192.168.") ip || strStarts (str "10.") ip ||
          strStarts (str "172.") ip)) = true
    · simp only [hcond, if_true, true_iff]
      simpa [Bool.and_eq_true, Bool.or_eq_true, or_assoc] using hcond
    · simp only [Bool.not_eq_true] at hcond
      simp only [hcond, Bool.false_eq_true, if_false]
      constructor
      · intro hh
        exfalso
        split at hh <;> exact DeviceType.noConfusion hh
      · intro hh
        exfalso
        have : (strEnds (str ".1") ip &&
            (strStarts (str "192.168.") ip || strStarts (str "10.") ip ||
              strStarts (str "172.") ip)) = true := by
          rcases hh.2 with h | h | h <;> simp [hh.1, h]
        rw [this] at hcond
        simp at hcond
  · unfold detectDeviceType
    rw [hns']
    simp only [Bool.false_eq_true, if_false]
    split
    · exact Or.inl rfl
    split
    · exact Or.inr rfl
    · exact Or.inr rfl

/-- A one-device state literal used by witnesses (layout fields are plain
rationals so that kernel evaluation never normalizes nontrivial fractions). -/
def oneDevState : AnalysisState :=
  { devices := [(str "1.2.3.4",
      { id := str "1.2.3.4", ip := str "1.2.3.4", mac := [], type := DeviceType.HOST,
        x := 0, y := 0, trafficIn := 0, trafficOut := 0, lastSeen := 0 })],
    connections := [], collisionCheckCounter := 0 }

/-- Witness for `C6_device_type`: the gateway rule at `192.168.1.1` and type
immutability across an ingest on the `1.2.3.4` key. -/
theorem C6_device_type_witness :
    detectDeviceType (str "192.168.1.1") = DeviceType.GATEWAY ∧
    typeOf (str "1.2.3.4") (analyzePacket tpZero rndSpread c3p2 oneDevState).devices =
      typeOf (str "1.2.3.4") oneDevState.devices := by
  have h := C6_device_type tpZero rndSpread c3p2 oneDevState
    (str "192.168.1.1") [] (str "1.2.3.4") (by decide) (by decide)
  exact ⟨h.1.mpr ⟨by decide, Or.inl (by decide)⟩, h.2.2.2⟩

/-! ## Claim C9: MAC stability -/

/-- C9: once a device's MAC is nonempty, no ingest changes it; and the MAC
only ever changes from empty to a nonempty MAC extracted from the packet's
link-layer annotation. -/
theorem C9_mac_stability (tp : TrigPush) (rnd : Str → ℚ × ℚ) (p : Packet) (st : AnalysisState)
    (k : Str) (m : Str) (h : macOf k st.devices = some m) :
    (m ≠ [] → macOf k (analyzePacket tp rnd p st).devices = some m) ∧
    (∀ m', macOf k (analyzePacket tp rnd p st).devices = some m' → m' ≠ m →
      m = [] ∧ m' ≠ [] ∧ (m' = sourceMacOf p.info ∨ m' = destMacOf p.info)) := by
  obtain ⟨d, hd, hdm⟩ := Option.map_eq_some'.1 h
  constructor
  · intro hm
    show macOf k (bumpIn p (bumpOut p (updateDevice tp rnd p st.devices))) = some m
    rw [bumpIn_macOf, bumpOut_macOf, ← hdm] at *
    exact ud_macOf_nonempty tp rnd p k st.devices d hd (hdm ▸ hm)
  · intro m' hm' hne
    have hm2 : alGet k (bumpIn p (bumpOut p (updateDevice tp rnd p st.devices))) =
        alGet k (analyzePacket tp rnd p st).devices := rfl
    have hm3 : macOf k (bumpIn p (bumpOut p (updateDevice tp rnd p st.devices))) = some m' := hm'
    rw [bumpIn_macOf, bumpOut_macOf] at hm3
    obtain ⟨du, hdu, hdum⟩ := Option.map_eq_some'.1 hm3
    obtain ⟨du', hdu', hor⟩ := ud_mac_char tp rnd p k st.devices d hd
    rw [hdu] at hdu'
    injection hdu' with hdu'
    rw [← hdu'] at hor
    rw [hdum] at hor
    rcases hor with hor | hor
    · exact absurd (hor.trans hdm) hne
    · exact ⟨hdm ▸ hor.1, hor.2.1, hor.2.2⟩

def c9p1 : Packet :=
  { timestamp := 5, sourceIp := str "192.168.1.1", destIp := str "224.0.0.1",
    sourcePort := 1, destPort := 2, protocol := .TCP, size := 7,
    info := some (str "MAC: aa:bb -> cc:dd") }

def c9p2 : Packet := { c9p1 with timestamp := 6, info := some (str "MAC: ee:ff -> 11:22") }

/-- Witness for `C9_mac_stability`: a device whose MAC was filled by a first
packet keeps it when a second packet carries a different annotation. -/
theorem C9_mac_stability_witness :
    macOf (str "192.168.1.1")
        (analyzePacket tpZero rndSpread c9p2 (analyzePacket tpZero rndSpread c9p1 emptyAnalysis)).devices =
      some (str "aa:bb") :=
  (C9_mac_stability tpZero rndSpread c9p2 (analyzePacket tpZero rndSpread c9p1 emptyAnalysis)
    (str "192.168.1.1") (str "aa:bb") (by decide)).1 (by decide)

/-! ## Claim C10: no special keys in the devices map -/

/-- The key shapes the claim says never appear in the devices map: prefixes
`127.`, `255.`, `224.`, `239.` and the exact address `0.0.0.0`. -/
def badDeviceKey (k : Str) : Bool :=
  strStarts (str "127.") k || strStarts (str "255.") k || strStarts (str "224.") k ||
  strStarts (str "239.") k || k == str "0.0.0.0"

/-- Every key of the map is non-special. -/
def goodKeys (ds : DeviceMap) : Bool := ds.all (fun kv => !badDeviceKey kv.1)

theorem isSpecial_eq_bad_or (k : Str) :
    isSpecialAddress k = (badDeviceKey k || k == str "255.255.255.255") := by
  unfold isSpecialAddress badDeviceKey
  simp [Bool.or_assoc]

theorem badDeviceKey_of_notSpecial (k : Str) (h : isSpecialAddress k = false) :
    badDeviceKey k = false := by
  rw [isSpecial_eq_bad_or] at h
  exact (Bool.or_eq_false_iff.1 h).1

def keysOf {α : Type} (m : List (Str × α)) : List Str := m.map Prod.fst

theorem keysOf_coreMap (ds : DeviceMap) : keysOf (coreMap ds) = keysOf ds := by
  unfold keysOf coreMap
  rw [List.map_map]
  rfl

theorem goodKeys_eq_keys (ds : DeviceMap) :
    goodKeys ds = (keysOf ds).all (fun k => !badDeviceKey k) := by
  induction ds with
  | nil => rfl
  | cons kv rest ih =>
    simp only [goodKeys, keysOf, List.map_cons, List.all_cons] at *
    rw [ih]

theorem goodKeys_of_coreMap {ds1 ds2 : DeviceMap} (h : coreMap ds1 = coreMap ds2) :
    goodKeys ds1 = goodKeys ds2 := by
  rw [goodKeys_eq_keys, goodKeys_eq_keys, ← keysOf_coreMap ds1, ← keysOf_coreMap ds2, h]

theorem goodKeys_alSet (k : Str) (v : NetworkDevice) (hk : badDeviceKey k = false) :
    ∀ ds : DeviceMap, goodKeys ds = true → goodKeys (alSet k v ds) = true := by
  intro ds
  induction ds with
  | nil =>
    intro _
    show ((!badDeviceKey k) && true) = true
    rw [hk]
    rfl
  | cons kv rest ih =>
    intro h
    have hsplit : ((!badDeviceKey kv.1) && goodKeys rest) = true := h
    rw [Bool.and_eq_true] at hsplit
    by_cases hkk : kv.1 = k
    · show goodKeys (if kv.1 == k then (k, v) :: rest else kv :: alSet k v rest) = true
      rw [if_pos (beq_iff_eq.mpr hkk)]
      show ((!badDeviceKey k) && goodKeys rest) = true
      rw [hk, hsplit.2]
      rfl
    · show goodKeys (if kv.1 == k then (k, v) :: rest else kv :: alSet k v rest) = true
      rw [if_neg (fun hc => hkk (beq_iff_eq.mp hc))]
      show ((!badDeviceKey kv.1) && goodKeys (alSet k v rest)) = true
      rw [hsplit.1, ih hsplit.2]
      rfl

theorem badKey_of_present (k : Str) (d : NetworkDevice) :
    ∀ ds : DeviceMap, goodKeys ds = true → alGet k ds = some d → badDeviceKey k = false := by
  intro ds
  induction ds with
  | nil =>
    intro _ hget
    simp [alGet] at hget
  | cons kv rest ih =>
    intro h hget
    have hsplit : ((!badDeviceKey kv.1) && goodKeys rest) = true := h
    rw [Bool.and_eq_true] at hsplit
    by_cases hkk : kv.1 = k
    · rw [← hkk]
      simpa using hsplit.1
    · refine ih hsplit.2 ?_
      have : alGet k (kv :: rest) = alGet k rest := by
        show (if kv.1 == k then some kv.2 else alGet k rest) = alGet k rest
        rw [if_neg (fun hc => hkk (beq_iff_eq.mp hc))]
      rw [← this]
      exact hget

theorem goodKeys_bumpOut (p : Packet) (ds : DeviceMap) (h : goodKeys ds = true) :
    goodKeys (bumpOut p ds) = true := by
  unfold bumpOut
  rcases hg : alGet p.sourceIp ds with _ | d <;> simp only [hg]
  · exact h
  · exact goodKeys_alSet _ _ (badKey_of_present _ d ds h hg) ds h

theorem goodKeys_bumpIn (p : Packet) (ds : DeviceMap) (h : goodKeys ds = true) :
    goodKeys (bumpIn p ds) = true := by
  unfold bumpIn
  rcases hg : alGet p.destIp ds with _ | d <;> simp only [hg]
  · exact h
  · exact goodKeys_alSet _ _ (badKey_of_present _ d ds h hg) ds h

theorem goodKeys_ensure (tp : TrigPush) (rnd : Str → ℚ × ℚ) (ip mac : Str) (ds : DeviceMap)
    (h : goodKeys ds = true) (hip : isSpecialAddress ip = false) :
    goodKeys (ensureDeviceExists tp rnd ip mac ds) = true := by
  unfold ensureDeviceExists
  rcases hg : alGet ip ds with _ | d <;> simp only [hg]
  · rw [goodKeys_of_coreMap (coreMap_resolveCollisions tp ip _)]
    exact goodKeys_alSet _ _ (badDeviceKey_of_notSpecial ip hip) ds h
  · by_cases hc : (mac != [] && d.mac == []) = true
    · simp only [hc, if_true]
      exact goodKeys_alSet _ _ (badKey_of_present _ d ds h hg) ds h
    · simp only [Bool.not_eq_true] at hc
      simp only [hc, Bool.false_eq_true, if_false]
      exact h

theorem goodKeys_updateDevice (tp : TrigPush) (rnd : Str → ℚ × ℚ) (p : Packet)
    (ds : DeviceMap) (h : goodKeys ds = true) :
    goodKeys (updateDevice tp rnd p ds) = true := by
  unfold updateDevice
  by_cases hs : isSpecialAddress p.sourceIp = true
  · simp only [hs, Bool.not_true, Bool.false_eq_true, if_false]
    by_cases hd : isSpecialAddress p.destIp = true
    · simp only [hd, Bool.not_true, Bool.false_eq_true, if_false]
      exact h
    · simp only [Bool.not_eq_true] at hd
      simp only [hd, Bool.not_false, if_true]
      exact goodKeys_ensure tp rnd _ _ ds h hd
  · simp only [Bool.not_eq_true] at hs
    simp only [hs, Bool.not_false, if_true]
    by_cases hd : isSpecialAddress p.destIp = true
    · simp only [hd, Bool.not_true, Bool.false_eq_true, if_false]
      exact goodKeys_ensure tp rnd _ _ ds h hs
    · simp only [Bool.not_eq_true] at hd
      simp only [hd, Bool.not_false, if_true]
      exact goodKeys_ensure tp rnd _ _ _ (goodKeys_ensure tp rnd _ _ ds h hs) hd

theorem goodKeys_ingest (tp : TrigPush) (rnd : Str → ℚ × ℚ) (p : Packet) (st : AnalysisState)
    (h : goodKeys st.devices = true) :
    goodKeys (analyzePacket tp rnd p st).devices = true := by
  show goodKeys (bumpIn p (bumpOut p (updateDevice tp rnd p st.devices))) = true
  exact goodKeys_bumpIn p _ (goodKeys_bumpOut p _ (goodKeys_updateDevice tp rnd p st.devices h))

/-- C10: after any sequence of ingests starting from an empty service, the
devices map holds no key starting with `127.`, `255.`, `224.`, or `239.`,
and no key equal to `0.0.0.0` — in particular every address beginning with
`255.` (such as `255.1.2.3`) is excluded, not only the full broadcast
address. -/
theorem C10_no_special_device_keys (tp : TrigPush) (rnd : Str → ℚ × ℚ) (ps : List Packet) :
    goodKeys ((ps.foldl (fun st p => analyzePacket tp rnd p st) emptyAnalysis).devices)
      = true := by
  suffices hgen : ∀ st : AnalysisState, goodKeys st.devices = true →
      goodKeys ((ps.foldl (fun st p => analyzePacket tp rnd p st) st).devices) = true by
    exact hgen emptyAnalysis rfl
  induction ps with
  | nil => exact fun st h => h
  | cons p rest ih =>
    intro st h
    rw [List.foldl_cons]
    exact ih _ (goodKeys_ingest tp rnd p st h)

/-! ## Claim C7: snapshot activity boundary -/

/-- Key membership in a filtered, re-keyed snapshot list: for a map whose
records carry their own key (`idf kv.2 == kv.1`) with no duplicate keys,
a key appears among the snapshot's keys iff its record passes the filter. -/
theorem mem_snap_iff {α : Type} (idf : α → Str) (pf : α → Bool) :
    ∀ (X : List (Str × α)), X.all (fun kv => idf kv.2 == kv.1) = true →
      (X.map Prod.fst).Nodup →
      ∀ (ip : Str) (e : α), alGet ip X = some e →
      (ip ∈ (X.filter (fun kv => pf kv.2)).map (fun kv => idf kv.2) ↔ pf e = true) := by
  intro X
  induction X with
  | nil =>
    intro _ _ ip e hget
    simp [alGet] at hget
  | cons kv rest ih =>
    intro hwf hnd ip e hget
    have hwf' : (idf kv.2 == kv.1) = true ∧ rest.all (fun kv => idf kv.2 == kv.1) = true := by
      have : ((idf kv.2 == kv.1) && rest.all (fun kv => idf kv.2 == kv.1)) = true := hwf
      rw [Bool.and_eq_true] at this
      exact this
    have hnd' := List.nodup_cons.1 hnd
    by_cases hkk : kv.1 = ip
    · have he : e = kv.2 := by
        have : alGet ip (kv :: rest) = some kv.2 := by
          show (if kv.1 == ip then some kv.2 else alGet ip rest) = some kv.2
          rw [if_pos (beq_iff_eq.mpr hkk)]
        rw [this] at hget
        injection hget with hget
        exact hget.symm
      subst he
      cases hpf : pf kv.2 with
      | true =>
        constructor
        · intro _
          rfl
        · intro _
          show ip ∈ ((kv :: rest).filter (fun kv => pf kv.2)).map (fun kv => idf kv.2)
          simp only [List.filter_cons, hpf, if_true, List.map_cons]
          have : idf kv.2 = ip := hkk ▸ beq_iff_eq.mp hwf'.1
          rw [this]
          exact List.mem_cons_self _ _
      | false =>
        constructor
        · intro hmem
          exfalso
          simp only [List.filter_cons, hpf, Bool.false_eq_true, if_false] at hmem
          rcases List.mem_map.1 hmem with ⟨kv', hin, heq⟩
          have hin' := List.mem_of_mem_filter hin
          have hkeq : idf kv'.2 = kv'.1 :=
            beq_iff_eq.mp (by
              have := List.all_eq_true.1 hwf'.2 kv' hin'
              exact this)
          have : kv.1 ∈ rest.map Prod.fst := by
            have : kv'.1 = kv.1 := by
              rw [← hkeq, heq, hkk]
            exact this ▸ List.mem_map.2 ⟨kv', hin', rfl⟩
          exact hnd'.1 this
        · intro hh
          exact absurd hh (by simp)
    · have hget' : alGet ip rest = some e := by
        have : alGet ip (kv :: rest) = alGet ip rest := by
          show (if kv.1 == ip then some kv.2 else alGet ip rest) = alGet ip rest
          rw [if_neg (fun hc => hkk (beq_iff_eq.mp hc))]
        rw [← this]
        exact hget
      have hrec := ih hwf'.2 hnd'.2 ip e hget'
      cases hpf : pf kv.2 with
      | true =>
        simp only [List.filter_cons, hpf, if_true, List.map_cons]
        constructor
        · intro hmem
          rcases List.mem_cons.1 hmem with hh | hh
          · exfalso
            have : idf kv.2 = kv.1 := beq_iff_eq.mp hwf'.1
            rw [this] at hh
            exact hkk hh.symm
          · exact hrec.1 hh
        · intro hh
          exact List.mem_cons.2 (Or.inr (hrec.2 hh))
      | false =>
        simp only [List.filter_cons, hpf, Bool.false_eq_true, if_false]
        exact hrec

theorem wfAll_eq_coreMap (ds : DeviceMap) :
    (coreMap ds).all (fun kv => kv.2.id == kv.1) = ds.all (fun kv => kv.2.id == kv.1) := by
  induction ds with
  | nil => rfl
  | cons kv rest ih =>
    show ((devCore kv.2).id == kv.1 && (coreMap rest).all (fun kv => kv.2.id == kv.1)) = _
    rw [ih]
    rfl

/-- C7: a record appears in the snapshot exactly when `(now − lastSeen) <
300000` — strictly — for devices and connections alike, in any state whose
records carry their own key without duplicates.  In particular a record
whose last-seen is `TTL − 1` ms old is included and one `TTL + 1` ms old is
excluded. -/
theorem C7_snapshot_boundary (tp : TrigPush) (now : Nat) (st : AnalysisState)
    (ip cid : Str) (d : NetworkDevice) (c : NetworkConnection)
    (hwf : st.devices.all (fun kv => kv.2.id == kv.1) = true)
    (hnd : (st.devices.map Prod.fst).Nodup)
    (hget : alGet ip st.devices = some d)
    (hwfc : st.connections.all (fun kv => kv.2.id == kv.1) = true)
    (hndc : (st.connections.map Prod.fst).Nodup)
    (hgetc : alGet cid st.connections = some c) :
    (ip ∈ ((getNetworkState tp now st).1.devices).map Prod.fst ↔
      (now : ℤ) - (d.lastSeen : ℤ) < 300000) ∧
    (cid ∈ ((getNetworkState tp now st).1.connections).map Prod.fst ↔
      (now : ℤ) - (c.lastSeen : ℤ) < 300000) := by
  unfold getNetworkState
  dsimp only
  constructor
  · by_cases hcnt : 10 ≤ st.collisionCheckCounter + 1
    · simp only [hcnt, if_true]
      have hcm := coreMap_resolveAllCollisions tp st.devices
      have hwf2 : (resolveAllCollisions tp st.devices).all (fun kv => kv.2.id == kv.1)
          = true := by
        rw [← wfAll_eq_coreMap, hcm, wfAll_eq_coreMap]
        exact hwf
      have hnd2 : ((resolveAllCollisions tp st.devices).map Prod.fst).Nodup := by
        have : (resolveAllCollisions tp st.devices).map Prod.fst = st.devices.map Prod.fst := by
          have h1 := keysOf_coreMap (resolveAllCollisions tp st.devices)
          have h2 := keysOf_coreMap st.devices
          unfold keysOf at h1 h2
          rw [← h1, ← h2, hcm]
        rw [this]
        exact hnd
      obtain ⟨d2, hd2, hd2c⟩ := Option.map_eq_some'.1
        ((alGet_devCore_congr hcm ip).trans (by rw [hget]; rfl))
      have hseen : d2.lastSeen = d.lastSeen := by
        have := congrArg (fun x => x.lastSeen) hd2c
        simpa [devCore] using this
      have hmain := mem_snap_iff (fun d : NetworkDevice => d.id)
        (fun d : NetworkDevice => decide ((now : ℤ) - (d.lastSeen : ℤ) < 300000))
        (resolveAllCollisions tp st.devices) hwf2 hnd2 ip d2 hd2
      rw [List.map_map] at *
      refine (Iff.trans ?_ hmain).trans ?_
      · rfl
      · show decide ((now : ℤ) - (d2.lastSeen : ℤ) < 300000) = true ↔
          (now : ℤ) - (d.lastSeen : ℤ) < 300000
        rw [hseen]
        exact decide_eq_true_iff
    · simp only [hcnt, if_false]
      have hmain := mem_snap_iff (fun d : NetworkDevice => d.id)
        (fun d : NetworkDevice => decide ((now : ℤ) - (d.lastSeen : ℤ) < 300000))
        st.devices hwf hnd ip d hget
      rw [List.map_map] at *
      refine (Iff.trans ?_ hmain).trans ?_
      · rfl
      · exact decide_eq_true_iff
  · have hmain := mem_snap_iff (fun c : NetworkConnection => c.id)
      (fun c : NetworkConnection => decide ((now : ℤ) - (c.lastSeen : ℤ) < 300000))
      st.connections hwfc hndc cid c hgetc
    rw [List.map_map] at *
    refine (Iff.trans ?_ hmain).trans ?_
    · rfl
    · exact decide_eq_true_iff

def c7dev : NetworkDevice :=
  { id := str "1.2.3.4", ip := str "1.2.3.4", mac := [], type := DeviceType.HOST,
    x := 0, y := 0, trafficIn := 0, trafficOut := 0, lastSeen := 0 }

def c7conn : NetworkConnection :=
  { id := str "c", sourceId := str "1.2.3.4", destId := str "5.6.7.8", protocol := .TCP,
    traffic := 0, packets := 0, lastSeen := 0 }

def c7st : AnalysisState :=
  { devices := [(str "1.2.3.4", c7dev)], connections := [(str "c", c7conn)],
    collisionCheckCounter := 0 }

/-- Witness for `C7_snapshot_boundary`: with last-seen 0, the device key is
in the snapshot at `now = 299999` (age TTL − 1) and out at `now = 300001`
(age TTL + 1). -/
theorem C7_snapshot_boundary_witness :
    (str "1.2.3.4" ∈ ((getNetworkState tpZero 299999 c7st).1.devices).map Prod.fst) ∧
    ¬(str "1.2.3.4" ∈ ((getNetworkState tpZero 300001 c7st).1.devices).map Prod.fst) := by
  have h1 := C7_snapshot_boundary tpZero 299999 c7st (str "1.2.3.4") (str "c") c7dev c7conn
    (by decide) (by decide) (by rfl) (by decide) (by decide) (by rfl)
  have h2 := C7_snapshot_boundary tpZero 300001 c7st (str "1.2.3.4") (str "c") c7dev c7conn
    (by decide) (by decide) (by rfl) (by decide) (by decide) (by rfl)
  exact ⟨h1.1.mpr (by decide), fun hmem => absurd (h2.1.mp hmem) (by decide)⟩

/-! ## Claim C8: layout resolver convergence -/

/-- The non-collision condition checked for one index pair (skipped pairs
count as fine). -/
def pairOk (ds : DeviceMap) (ij : Nat × Nat) : Bool :=
  match ds[ij.1]?, ds[ij.2]? with
  | some kv1, some kv2 =>
    !strLt kv1.1 kv2.1 ||
      !collide (kv2.2.x - kv1.2.x) (kv2.2.y - kv1.2.y)
        (getDeviceRadius kv1.2 + getDeviceRadius kv2.2 + 50)
  | _, _ => true

/-- Every pair of distinct-key devices is separated by at least the sum of
radii plus the margin (via the squared-distance comparison). -/
def separatedAll (ds : DeviceMap) : Bool := (pairIdx ds.length).all (pairOk ds)

/-- Every one of the first `n` iterations of `resolveAllCollisions` finds a
collision (i.e. the iteration cap is exhausted without an early stop). -/
def allPassesCollide (tp : TrigPush) : Nat → DeviceMap → Bool
  | 0, _ => true
  | n + 1, ds =>
    (onePass tp ds).2 && allPassesCollide tp n (clampAll (onePass tp ds).1)

theorem passStep_flag (tp : TrigPush) (st : DeviceMap × Bool) (ij : Nat × Nat)
    (h : st.2 = true) : (passStep tp st ij).2 = true := by
  unfold passStep
  rcases h1 : st.1[ij.1]? with _ | ⟨k1, d1⟩ <;> rcases h2 : st.1[ij.2]? with _ | ⟨k2, d2⟩ <;>
    simp only [h1, h2] <;> try exact h
  by_cases hlt : strLt k1 k2 = true
  · simp only [hlt, if_true]
    by_cases hc : collide (d2.x - d1.x) (d2.y - d1.y)
        (getDeviceRadius d1 + getDeviceRadius d2 + 50) = true
    · simp [hc]
    · simp [hc, h]
  · simp only [Bool.not_eq_true] at hlt
    simp [hlt, h]

theorem foldl_passStep_flag (tp : TrigPush) :
    ∀ (l : List (Nat × Nat)) (st : DeviceMap × Bool), st.2 = true →
      (l.foldl (passStep tp) st).2 = true := by
  intro l
  induction l with
  | nil => exact fun st h => h
  | cons ij rest ih =>
    intro st h
    rw [List.foldl_cons]
    exact ih _ (passStep_flag tp st ij h)

theorem passStep_false_inv (tp : TrigPush) (st : DeviceMap × Bool) (ij : Nat × Nat)
    (h : (passStep tp st ij).2 = false) :
    passStep tp st ij = st ∧ pairOk st.1 ij = true := by
  unfold passStep at *
  unfold pairOk
  rcases h1 : st.1[ij.1]? with _ | ⟨k1, d1⟩ <;> rcases h2 : st.1[ij.2]? with _ | ⟨k2, d2⟩ <;>
    simp only [h1, h2] at h ⊢ <;> try exact ⟨trivial, trivial⟩
  by_cases hlt : strLt k1 k2 = true
  · simp only [hlt, if_true] at h ⊢
    by_cases hc : collide (d2.x - d1.x) (d2.y - d1.y)
        (getDeviceRadius d1 + getDeviceRadius d2 + 50) = true
    · rw [if_pos hc] at h
      simp at h
    · rw [if_neg (by simpa using hc)] at h ⊢
      simp only [Bool.not_eq_true] at hc
      simp [hc]
  · simp only [Bool.not_eq_true] at hlt
    simp [hlt]

theorem foldl_passStep_false (tp : TrigPush) :
    ∀ (l : List (Nat × Nat)) (st : DeviceMap × Bool),
      (l.foldl (passStep tp) st).2 = false →
      (l.foldl (passStep tp) st).1 = st.1 ∧ ∀ ij ∈ l, pairOk st.1 ij = true := by
  intro l
  induction l with
  | nil =>
    intro st _
    exact ⟨rfl, fun ij h => absurd h (List.not_mem_nil ij)⟩
  | cons ij rest ih =>
    intro st h
    rw [List.foldl_cons] at h ⊢
    have hstep : (passStep tp st ij).2 = false := by
      cases hb : (passStep tp st ij).2 with
      | false => rfl
      | true =>
        rw [foldl_passStep_flag tp rest _ hb] at h
        exact absurd h (by simp)
    obtain ⟨heq, hok⟩ := passStep_false_inv tp st ij hstep
    rw [heq] at h ⊢
    obtain ⟨h1, h2⟩ := ih st h
    exact ⟨h1, fun ij' hmem => by
      rcases List.mem_cons.1 hmem with hh | hh
      · exact hh ▸ hok
      · exact h2 ij' hh⟩

/-- A collision-free iteration leaves the map unchanged and certifies full
separation. -/
theorem onePass_false (tp : TrigPush) (ds : DeviceMap) (h : (onePass tp ds).2 = false) :
    (onePass tp ds).1 = ds ∧ separatedAll ds = true := by
  unfold onePass at *
  obtain ⟨h1, h2⟩ := foldl_passStep_false tp (pairIdx ds.length) (ds, false) h
  refine ⟨h1, ?_⟩
  unfold separatedAll
  exact List.all_eq_true.2 (fun ij hmem => h2 ij hmem)

theorem resolveAllAux_sep (tp : TrigPush) :
    ∀ (n : Nat) (ds : DeviceMap),
      separatedAll (resolveAllAux tp n ds) = true ∨ allPassesCollide tp n ds = true := by
  intro n
  induction n with
  | zero => exact fun ds => Or.inr rfl
  | succ m ih =>
    intro ds
    have hred : resolveAllAux tp (m + 1) ds =
        (if (onePass tp ds).2 = true then resolveAllAux tp m (clampAll (onePass tp ds).1)
         else (onePass tp ds).1) := rfl
    rw [hred]
    cases hc : (onePass tp ds).2 with
    | false =>
      simp only [Bool.false_eq_true, if_false]
      obtain ⟨h1, h2⟩ := onePass_false tp ds hc
      rw [h1]
      exact Or.inl h2
    | true =>
      simp only [if_true]
      rcases ih (clampAll (onePass tp ds).1) with hh | hh
      · exact Or.inl hh
      · refine Or.inr ?_
        show ((onePass tp ds).2 && allPassesCollide tp m (clampAll (onePass tp ds).1)) = true
        rw [hc, hh]
        rfl

/-- C8: after `resolveAllCollisions` terminates, either every pair of
devices with distinct keys is separated by at least the sum of their radii
plus the margin 50, or all 50 iterations of the cap found collisions; and
the loop stops early — returning the unchanged map — as soon as an
iteration finds zero collisions. -/
theorem C8_resolveAll_converges (tp : TrigPush) (ds : DeviceMap) :
    (separatedAll (resolveAllCollisions tp ds) = true ∨ allPassesCollide tp 50 ds = true) ∧
    (∀ n : Nat, (onePass tp ds).2 = false → resolveAllAux tp (n + 1) ds = ds) := by
  refine ⟨resolveAllAux_sep tp 50 ds, ?_⟩
  intro n hf
  have hred : resolveAllAux tp (n + 1) ds =
      (if (onePass tp ds).2 = true then resolveAllAux tp n (clampAll (onePass tp ds).1)
       else (onePass tp ds).1) := rfl
  rw [hred, hf]
  simp only [Bool.false_eq_true, if_false]
  exact (onePass_false tp ds hf).1

/-- Witness for `C8_resolveAll_converges` at the empty map, whose single
iteration finds no collision. -/
theorem C8_resolveAll_converges_witness :
    resolveAllAux tpZero 1 [] = [] ∧
    (separatedAll (resolveAllCollisions tpZero []) = true ∨
      allPassesCollide tpZero 50 [] = true) :=
  ⟨(C8_resolveAll_converges tpZero []).2 0 (by decide),
   (C8_resolveAll_converges tpZero []).1⟩

/-! ## Claim C1: `startMultiple` teardown scope -/

def c1proc : CaptureProcess := { interfaceName := str "wlan0", filter := none, packetCount := 3 }

def c1st : CaptureState :=
  { captureProcesses := [(str "wlan0", c1proc)], totalPacketCount := 5 }

/-- C1 counterexample: with `wlan0` already capturing from an earlier call,
`startMultiple ["eth0", "eth1"]` resolves successfully no matter how the
spawns fare — `start` contains no `await` and cannot reject on a launch
failure — and when `eth0`'s launch failure then arrives through the
child's `error` event, only `eth0` is stopped: `eth1`, started in the same
call, and `wlan0` keep running.  The call does not fail and nothing is
torn down atomically. -/
theorem C1_counterexample :
    (startMultiple [str "eth0", str "eth1"] none c1st).1 = none ∧
    alHas (str "eth1")
      (launchErrorEvent (str "eth0")
        (startMultiple [str "eth0", str "eth1"] none c1st).2).captureProcesses = true ∧
    alHas (str "wlan0")
      (launchErrorEvent (str "eth0")
        (startMultiple [str "eth0", str "eth1"] none c1st).2).captureProcesses = true ∧
    alHas (str "eth0")
      (launchErrorEvent (str "eth0")
        (startMultiple [str "eth0", str "eth1"] none c1st).2).captureProcesses = false := by
  refine ⟨by decide, by decide, by decide, by decide⟩

theorem stopAll_processes (s : CaptureState) :
    (stopAllInterfaces s).captureProcesses = [] := by
  unfold stopAllInterfaces
  by_cases h : s.captureProcesses.isEmpty = true
  · simp only [h, if_true]
    exact List.isEmpty_iff.1 h
  · simp only [Bool.not_eq_true] at h
    simp [h]

theorem alGet_remove_other {α : Type} (k f : Str) (h : f ≠ k) (m : List (Str × α)) :
    alGet k (alRemove f m) = alGet k m := by
  induction m with
  | nil => rfl
  | cons kv rest ih =>
    by_cases hf : kv.1 = f
    · have h1 : (kv.1 == f) = true := beq_iff_eq.2 hf
      have h2 : (kv.1 == k) = false := by
        rw [beq_eq_false_iff_ne, hf]
        exact h
      simp [alRemove, List.filter_cons, h1, alGet, h2] at *
      exact ih
    · have h1 : (kv.1 == f) = false := beq_eq_false_iff_ne.2 hf
      simp only [alRemove, List.filter_cons, h1, Bool.not_false, if_true, alGet]
      rw [show alGet k (List.filter (fun kv => !(kv.1 == f)) rest) = alGet k rest from ih]

theorem alGet_remove_self {α : Type} (f : Str) (m : List (Str × α)) :
    alGet f (alRemove f m) = none := by
  induction m with
  | nil => rfl
  | cons kv rest ih =>
    by_cases hf : kv.1 = f
    · have h1 : (kv.1 == f) = true := beq_iff_eq.2 hf
      simp [alRemove, List.filter_cons, h1] at *
      exact ih
    · have h1 : (kv.1 == f) = false := beq_eq_false_iff_ne.2 hf
      simp only [alRemove, List.filter_cons, h1, Bool.not_false, if_true, alGet]
      rw [if_neg (by simp [h1])]
      exact ih

theorem startFoldStep_has_self (filt : Option Str) (acc : List CaptureError × CaptureState)
    (n : Str) :
    alHas n (startFoldStep filt acc n).2.captureProcesses = true := by
  by_cases h : alHas n acc.2.captureProcesses = true
  · simp [startFoldStep, start, h]
  · rw [Bool.not_eq_true] at h
    simp [startFoldStep, start, h, alHas_set]

theorem startFoldStep_has_mono (filt : Option Str) (acc : List CaptureError × CaptureState)
    (n k : Str) (hk : alHas k acc.2.captureProcesses = true) :
    alHas k (startFoldStep filt acc n).2.captureProcesses = true := by
  by_cases h : alHas n acc.2.captureProcesses = true
  · simp [startFoldStep, start, h, hk]
  · rw [Bool.not_eq_true] at h
    simp [startFoldStep, start, h, alHas_set, hk]

theorem startFoldStep_err_mono (filt : Option Str) (acc : List CaptureError × CaptureState)
    (n : Str) (hk : acc.1 ≠ []) :
    (startFoldStep filt acc n).1 ≠ [] := by
  by_cases h : alHas n acc.2.captureProcesses = true
  · simp only [startFoldStep, start, h, if_true]
    intro hc
    exact hk (List.append_eq_nil.1 hc).1
  · rw [Bool.not_eq_true] at h
    simp only [startFoldStep, start, h, Bool.false_eq_true, if_false, Option.toList_none,
      List.append_nil]
    exact hk

theorem startFoldStep_err_dup (filt : Option Str) (acc : List CaptureError × CaptureState)
    (n : Str) (h : alHas n acc.2.captureProcesses = true) :
    (startFoldStep filt acc n).1 ≠ [] := by
  simp only [startFoldStep, start, h, if_true]
  intro hc
  exact List.cons_ne_nil _ _ (List.append_eq_nil.1 hc).2

theorem foldStart_err_mono (filt : Option Str) (names : List Str) :
    ∀ acc : List CaptureError × CaptureState, acc.1 ≠ [] →
      (names.foldl (startFoldStep filt) acc).1 ≠ [] := by
  induction names with
  | nil => intro acc h; exact h
  | cons n rest ih =>
    intro acc h
    rw [List.foldl_cons]
    exact ih _ (startFoldStep_err_mono filt acc n h)

theorem foldStart_err_of_mem (filt : Option Str) (names : List Str) :
    ∀ (acc : List CaptureError × CaptureState) (n : Str), n ∈ names →
      alHas n acc.2.captureProcesses = true →
      (names.foldl (startFoldStep filt) acc).1 ≠ [] := by
  induction names with
  | nil => intro acc n h _; exact absurd h (List.not_mem_nil n)
  | cons m rest ih =>
    intro acc n hmem h
    rw [List.foldl_cons]
    rcases List.mem_cons.1 hmem with he | hr
    · subst he
      exact foldStart_err_mono filt rest _ (startFoldStep_err_dup filt acc n h)
    · exact ih _ n hr (startFoldStep_has_mono filt acc m n h)

theorem foldStart_err_of_dup (filt : Option Str) (names : List Str) :
    ∀ acc : List CaptureError × CaptureState, ¬ names.Nodup →
      (names.foldl (startFoldStep filt) acc).1 ≠ [] := by
  induction names with
  | nil => intro acc h; exact absurd List.nodup_nil h
  | cons n rest ih =>
    intro acc h
    by_cases hmem : n ∈ rest
    · rw [List.foldl_cons]
      exact foldStart_err_of_mem filt rest _ n hmem (startFoldStep_has_self filt acc n)
    · have hnd : ¬ rest.Nodup := fun hnd => h (List.nodup_cons.2 ⟨hmem, hnd⟩)
      rw [List.foldl_cons]
      exact ih _ hnd

theorem foldStart_ok (filt : Option Str) (names : List Str) :
    ∀ st : CaptureState, names.Nodup →
      (∀ n ∈ names, alHas n st.captureProcesses = false) →
      (names.foldl (startFoldStep filt) ([], st)).1 = [] ∧
      ∀ k, alHas k (names.foldl (startFoldStep filt) ([], st)).2.captureProcesses = true ↔
        (alHas k st.captureProcesses = true ∨ k ∈ names) := by
  induction names with
  | nil =>
    intro st _ _
    exact ⟨rfl, fun k => by simp⟩
  | cons n rest ih =>
    intro st hnd hfresh
    have hn : alHas n st.captureProcesses = false := hfresh n (List.mem_cons_self n rest)
    rw [List.foldl_cons]
    have hstep : startFoldStep filt (([] : List CaptureError), st) n =
        ([], { st with
               captureProcesses := alSet n (mkCaptureProcess n filt) st.captureProcesses }) := by
      simp [startFoldStep, start, hn]
    rw [hstep]
    have hnmem : n ∉ rest := (List.nodup_cons.1 hnd).1
    have hnd' : rest.Nodup := (List.nodup_cons.1 hnd).2
    have hfresh1 : ∀ m ∈ rest,
        alHas m (alSet n (mkCaptureProcess n filt) st.captureProcesses) = false := by
      intro m hm
      rw [alHas_set]
      have hmn : (m == n) = false := by
        rw [beq_eq_false_iff_ne]
        intro he
        exact hnmem (he ▸ hm)
      rw [hfresh m (List.mem_cons_of_mem n hm), hmn]
      rfl
    obtain ⟨ih1, ih2⟩ := ih { st with
        captureProcesses := alSet n (mkCaptureProcess n filt) st.captureProcesses } hnd'
      (fun m hm => hfresh1 m hm)
    refine ⟨ih1, fun k => ?_⟩
    have h2 := ih2 k
    dsimp only at h2
    rw [alHas_set] at h2
    rw [h2]
    constructor
    · rintro (hk | hk)
      · rw [Bool.or_eq_true] at hk
        rcases hk with h1 | h1
        · exact Or.inl h1
        · exact Or.inr (List.mem_cons.2 (Or.inl (beq_iff_eq.1 h1)))
      · exact Or.inr (List.mem_cons_of_mem n hk)
    · rintro (hk | hk)
      · exact Or.inl (by rw [hk]; rfl)
      · rcases List.mem_cons.1 hk with he | hr
        · refine Or.inl ?_
          rw [beq_iff_eq.2 he]
          exact Bool.or_true _
        · exact Or.inr hr

/-- C1 (amended): `startMultiple` cannot observe launch failures, because
`start` resolves before the child's `error` event can fire.  For a
nonempty request whose interfaces are not already running: (a) if the
request has no internal duplicates the call resolves successfully and the
running interfaces afterwards are exactly the previously-running ones plus
the requested ones; (b) a launch failure is handled afterwards by the
child's asynchronous `error` event, which stops exactly the failed
interface and leaves every other interface — from this call or earlier —
untouched; (c) only when the request carries an internal duplicate does a
`start` reject synchronously: then the `.catch` teardown runs, the call
fails, and `stopAllInterfaces` clears the whole process map,
previously-running interfaces included. -/
theorem C1_teardown (names : List Str) (filt : Option Str) (st : CaptureState)
    (hne : names ≠ [])
    (hfresh : ∀ n ∈ names, alHas n st.captureProcesses = false) :
    (names.Nodup →
      (startMultiple names filt st).1 = none ∧
      ∀ k, alHas k (startMultiple names filt st).2.captureProcesses = true ↔
        (alHas k st.captureProcesses = true ∨ k ∈ names)) ∧
    (∀ (s : CaptureState) (f b : Str), f ≠ b →
      alHas b (launchErrorEvent f s).captureProcesses = alHas b s.captureProcesses ∧
      alHas f (launchErrorEvent f s).captureProcesses = false) ∧
    (¬ names.Nodup →
      (startMultiple names filt st).1.isSome = true ∧
      (startMultiple names filt st).2.captureProcesses = []) := by
  have hne' : names.isEmpty = false := by
    cases names with
    | nil => exact absurd rfl hne
    | cons a l => rfl
  have hdups : names.filter (fun n => alHas n st.captureProcesses) = [] :=
    List.filter_eq_nil_iff.2 (fun n hn => by rw [hfresh n hn]; exact Bool.false_ne_true)
  have hdups' : (names.filter (fun n => alHas n st.captureProcesses)).isEmpty = true := by
    rw [hdups]
    rfl
  refine ⟨?_, ?_, ?_⟩
  · intro hnd
    obtain ⟨h1, h2⟩ := foldStart_ok filt names st hnd hfresh
    have hfin : ∀ r : List CaptureError × CaptureState, r.1 = [] →
        finishStart r = (none, r.2) := by
      intro r hr
      rcases r with ⟨errs, st'⟩
      cases errs with
      | nil => rfl
      | cons e rest => exact absurd hr (by simp)
    unfold startMultiple
    rw [hne']
    simp only [Bool.false_eq_true, if_false]
    rw [hdups']
    simp only [Bool.not_true, Bool.false_eq_true, if_false]
    rw [hfin _ h1]
    exact ⟨rfl, h2⟩
  · intro s f b hfb
    constructor
    · show alHas b (stopInterface f s).captureProcesses = _
      unfold stopInterface
      by_cases h : alHas f s.captureProcesses = true
      · rw [if_pos h]
        show alHas b (alRemove f s.captureProcesses) = _
        unfold alHas
        rw [alGet_remove_other b f hfb]
      · rw [if_neg h]
    · show alHas f (stopInterface f s).captureProcesses = false
      unfold stopInterface
      by_cases h : alHas f s.captureProcesses = true
      · rw [if_pos h]
        show alHas f (alRemove f s.captureProcesses) = false
        unfold alHas
        rw [alGet_remove_self f]
        rfl
      · rw [if_neg h]
        rw [Bool.not_eq_true] at h
        exact h
  · intro hnd
    have herr := foldStart_err_of_dup filt names (([] : List CaptureError), st) hnd
    have hfin2 : ∀ r : List CaptureError × CaptureState, r.1 ≠ [] →
        (finishStart r).1.isSome = true ∧ (finishStart r).2.captureProcesses = [] := by
      intro r hr
      rcases r with ⟨errs, st'⟩
      cases errs with
      | nil => exact absurd rfl hr
      | cons e rest => exact ⟨rfl, stopAll_processes _⟩
    unfold startMultiple
    rw [hne']
    simp only [Bool.false_eq_true, if_false]
    rw [hdups']
    simp only [Bool.not_true, Bool.false_eq_true, if_false]
    exact hfin2 _ herr

/-- Witness for `C1_teardown`: on the state with `wlan0` running, a fresh
singleton request resolves and registers its interface, while the
internally duplicated request fails and clears everything. -/
theorem C1_teardown_witness :
    ((startMultiple [str "em1"] none c1st).1 = none ∧
      alHas (str "em1") (startMultiple [str "em1"] none c1st).2.captureProcesses = true) ∧
    ((startMultiple [str "em1", str "em1"] none c1st).1.isSome = true ∧
      (startMultiple [str "em1", str "em1"] none c1st).2.captureProcesses = []) := by
  constructor
  · have h := (C1_teardown [str "em1"] none c1st (by decide) (by decide)).1 (by decide)
    exact ⟨h.1, (h.2 (str "em1")).2 (Or.inr (by decide))⟩
  · exact (C1_teardown [str "em1", str "em1"] none c1st (by decide) (by decide)).2.2 (by decide)

end PacketView
